import Mathlib

/-!
Shallow embedding of the simulation core of `src/states/main_state.rs`
(the game `MainState` and its per-tick `update` routine).

Conventions of the embedding:
* `f32` scalars are modelled as `ℝ` with exact arithmetic.  Decimal
  literals (`0.3`, `1.1`, ...) are taken exactly; the tiny rounding of
  binary floating point is not modelled.
* `glam`/`macroquad` vector operations (`length`, `distance`, `normalize`,
  `project_onto`, `angle_between`, `Vec2::from_angle`) are translated with
  their mathematical definitions over `ℝ`.  `normalize` of the zero vector
  is NaN in the source; the total model returns the junk value `(0, 0)`
  there (division by zero in `ℝ`), and definedness is tracked separately
  by `Vec2.normalizeOpt` (`none` models the NaN outcome).
* Randomness (`rand::gen_range`) is modelled by oracle values supplied in
  a `Draws` structure; each draw site reads its own oracle field.  Range
  constraints of a draw are added as hypotheses where a theorem needs them.
* Keyboard and clock queries are inputs (`Input`, `Env`).
* A Rust panic (index out of bounds, `% 0`) is modelled by `Option`:
  `MainState.update` returns `none` exactly on the panicking paths.
-/

/-- 2D `f32` vector (`macroquad::prelude::Vec2`), components modelled as `ℝ`. -/
structure Vec2 where
  x : ℝ
  y : ℝ

def Vec2.add (a b : Vec2) : Vec2 := ⟨a.x + b.x, a.y + b.y⟩

def Vec2.sub (a b : Vec2) : Vec2 := ⟨a.x - b.x, a.y - b.y⟩

def Vec2.neg (a : Vec2) : Vec2 := ⟨-a.x, -a.y⟩

/-- Scalar multiplication `r * v` (`Vec2 * f32` / `f32 * Vec2` in glam). -/
def Vec2.smul (r : ℝ) (v : Vec2) : Vec2 := ⟨r * v.x, r * v.y⟩

instance : Add Vec2 := ⟨Vec2.add⟩

instance : Sub Vec2 := ⟨Vec2.sub⟩

instance : Neg Vec2 := ⟨Vec2.neg⟩

instance : SMul ℝ Vec2 := ⟨Vec2.smul⟩

instance : Zero Vec2 := ⟨⟨0, 0⟩⟩

/-- `glam::Vec2::dot`. -/
def Vec2.dot (a b : Vec2) : ℝ := a.x * b.x + a.y * b.y

/-- `glam::Vec2::perp_dot` (the 2D cross product). -/
def Vec2.perpDot (a b : Vec2) : ℝ := a.x * b.y - a.y * b.x

/-- `glam::Vec2::length` = `sqrt (self . self)`. -/
noncomputable def Vec2.length (v : Vec2) : ℝ := Real.sqrt (v.x ^ 2 + v.y ^ 2)

/-- `glam::Vec2::distance` = `(self - rhs).length()`. -/
noncomputable def Vec2.distance (a b : Vec2) : ℝ := (a - b).length

/-- `glam::Vec2::normalize` = `self / self.length()`.  For the zero vector the
source produces NaN; this total model yields the junk value `(0,0)` (real
division by zero), and definedness is tracked by `Vec2.normalizeOpt`. -/
noncomputable def Vec2.normalize (v : Vec2) : Vec2 := ⟨v.x / v.length, v.y / v.length⟩

/-- `glam::Vec2::normalize` with its undefinedness made explicit: `none`
models the NaN result the source produces on a zero-length input. -/
noncomputable def Vec2.normalizeOpt (v : Vec2) : Option Vec2 :=
  if v.length = 0 then none else some v.normalize

/-- `glam::Vec2::project_onto` = `rhs * (self . rhs / rhs . rhs)`. -/
noncomputable def Vec2.projectOnto (v w : Vec2) : Vec2 := (Vec2.dot v w / Vec2.dot w w) • w

/-- `glam::Vec2::angle_between` = `atan2 (perp_dot self rhs) (dot self rhs)`,
in radians in `(-pi, pi]`.  `atan2 y x` is `Complex.arg (x + y*i)`. -/
noncomputable def Vec2.angleBetween (v w : Vec2) : ℝ :=
  Complex.arg ⟨Vec2.dot v w, Vec2.perpDot v w⟩

/-- `glam::Vec2::from_angle` = `(cos angle, sin angle)`. -/
noncomputable def Vec2.fromAngle (t : ℝ) : Vec2 := ⟨Real.cos t, Real.sin t⟩

/-- `f32::to_radians`. -/
noncomputable def toRadians (x : ℝ) : ℝ := x * (Real.pi / 180)

/-- `f32::to_degrees`. -/
noncomputable def toDegrees (x : ℝ) : ℝ := x * (180 / Real.pi)

/-- `f32 as i32`: truncation toward zero. -/
noncomputable def f32toI32 (x : ℝ) : ℤ := if 0 ≤ x then ⌊x⌋ else -⌊-x⌋

/-- `f32 as usize`: truncation, saturating at 0 for negative inputs. -/
noncomputable def f32toUsize (x : ℝ) : ℕ := ⌊x⌋₊

/-- `f32::signum`: `1.0` for nonnegative input (Rust maps `+0.0` to `1.0`),
`-1.0` for negative input. -/
noncomputable def f32signum (x : ℝ) : ℝ := if x < 0 then -1 else 1

/-! Constants of `main_state.rs`. -/

def SHIP_HEIGHT : ℝ := 25

def ROCKET_SIZE : ℝ := 8

def BULLET_LIFETIME : ℝ := 1.5

def ROCKET_LIFETIME : ℝ := 4.0

def SHIP_ROTATION_SPEED : ℝ := 4

/-- `fn vec_from_rot(rot: f32) -> Vec2 { Vec2::new(rot.sin(), -rot.cos()) }` -/
noncomputable def vec_from_rot (rot : ℝ) : Vec2 := ⟨Real.sin rot, -Real.cos rot⟩

/-! Entity structures, with the field names of the source. -/

structure Ship where
  pos : Vec2
  rot : ℝ
  vel : Vec2

structure Bullet where
  pos : Vec2
  vel : Vec2
  shot_at : ℝ
  collided : Bool

structure Asteroid where
  pos : Vec2
  vel : Vec2
  rot : ℝ
  rot_speed : ℝ
  size : ℝ
  sides : ℕ
  collided : Bool
  shape_idx : ℕ

structure Rocket where
  pos : Vec2
  vel : Vec2
  rot : ℝ
  collided : Bool
  shot_at : ℝ
  steer : Bool

structure BlackHole where
  pos : Vec2
  vel : Vec2
  size : ℝ
  collided : Bool

instance : Inhabited BlackHole := ⟨⟨0, 0, 0, false⟩⟩

/-- The six entries of `make_upgrades()`, as a tagged enumeration.  The
mutable counter captured by the `"+N Missiles"` closure is modelled as the
state field `MainState.next_rockets`. -/
inductive UpgradeKind where
  | brakes
  | missiles
  | rocketReload
  | bulletReload
  | rocketProduction
  | shieldsUp
deriving DecidableEq, Repr

structure LevelUp where
  selected : ℕ
  upgrade_choices : List UpgradeKind

inductive RocketSide where
  | right
  | left
deriving DecidableEq, Repr

def RocketSide.switch : RocketSide → RocketSide
  | .left => .right
  | .right => .left

/-- The terminating game outcome `MenuState::Lost` returned by `update`. -/
inductive Outcome where
  | lost
deriving DecidableEq, Repr

structure MainState where
  paused : Bool
  game_t : ℝ
  ship : Ship
  invulnerable_until : ℝ
  colliding : Bool
  last_asteroid_generate_pos : Vec2
  generated_asteroids : ℕ
  bullets : List Bullet
  last_bullet_shot : ℝ
  last_rocket_shot : ℝ
  asteroids : List Asteroid
  rockets : List Rocket
  rocket_side : RocketSide
  asteroid_shapes : ℕ          -- only the palette length is simulation-relevant
  black_holes : List BlackHole
  level_up : Option LevelUp
  level : ℕ
  xp : ℕ
  next_level_xp : ℕ
  hostile_asteroids_per_second : ℝ
  new_hostile_asteroids : ℝ
  max_hostile_asteroid_speed : ℝ
  available_upgrades : List UpgradeKind
  has_brakes : Bool
  shields : ℝ
  shield_regeneration_per_sec : ℝ
  rocket_stockpile : ℕ
  rocket_production_progress : ℝ
  rocket_production_per_sec : ℝ
  bullet_reload_time : ℝ
  rocket_reload_time : ℝ
  next_rockets : ℕ             -- the Rc<Cell<_>> counter captured by the missiles upgrade

/-! Host-environment inputs of one tick. -/

/-- Keyboard queries made during one `update` call.  `*Pressed` fields model
`is_key_pressed`, `*Down` fields model `is_key_down`. -/
structure Input where
  enterPressed : Bool
  pPressed : Bool
  downPressed : Bool
  upPressed : Bool
  upDown : Bool
  downDown : Bool
  leftDown : Bool
  rightDown : Bool
  spaceDown : Bool
  altDown : Bool

/-- Clock and display-geometry queries of one tick. -/
structure Env where
  frameT : ℝ
  screenW : ℝ
  screenH : ℝ

/-- Oracle values for the `rand::gen_range` draws of `Asteroid::new`. -/
structure AsteroidNewDraws where
  velX : ℝ        -- gen_range(-1., 1.)
  velY : ℝ        -- gen_range(-1., 1.)
  rotSpeed : ℝ    -- gen_range(-2., 2.)
  sides : ℕ       -- gen_range(3, 8)
  shapeIdx : ℕ    -- gen_range(0, asteroid_shapes.len())

/-- Oracle values for the draws of one fragmentation child (lines 610-629). -/
structure FragChildDraws where
  speed : ℝ       -- gen_range(1., 3.)
  rot : ℝ         -- gen_range(0., 360.)
  rotSpeed : ℝ    -- gen_range(-2., 2.)
  shapeIdx : ℕ    -- gen_range(0, asteroid_shapes.len())

/-- Oracle values for one generated ambient asteroid (lines 713-731). -/
structure GenPosDraws where
  edge : ℝ        -- gen_range(0., 1.), compared with the x-pixel share
  a : ℝ           -- the first positional draw of the taken branch
  b : ℝ           -- the second positional draw of the taken branch
  ast : AsteroidNewDraws

/-- Oracle values for one hostile asteroid (lines 740-750). -/
structure HostileDraws where
  angleDeg : ℝ    -- gen_range(0., 360.)
  dist : ℝ        -- gen_range(diag, diag * 2.)
  speed : ℝ       -- gen_range(1., max_hostile_asteroid_speed)
  ast : AsteroidNewDraws

/-- Oracle values for one topped-up black hole (lines 766-784). -/
structure BHDraws where
  angleDeg : ℝ    -- gen_range(0., 360.)
  dist : ℝ        -- gen_range(diag * 0.4, diag * 2.)
  rx : ℝ          -- gen_range(-0.5, 0.5)
  ry : ℝ          -- gen_range(-0.5, 0.5)
  speed : ℝ       -- gen_range(1., 3.)
  size : ℝ        -- gen_range(5., 20.)

/-- All random draws one `update` call may consume, indexed per draw site. -/
structure Draws where
  rocketSf : ℝ                 -- gen_range(1.0, 1.4), rocket launch angle factor
  rocketSpeed : ℝ              -- gen_range(0.7, 1.2), rocket launch speed
  frag1 : FragChildDraws
  frag2 : FragChildDraws
  genCount : ℕ                 -- the value drawn for `amount_new_asteroids`
  gen : ℕ → GenPosDraws
  hostile : ℕ → HostileDraws
  bh : ℕ → BHDraws
  levelUpPick : ℕ → ℕ → ℕ      -- per level-up this tick, per choice, the pool index draw

/-! The upgrade pool (`make_upgrades`, lines 190-241) and the level-up prompt. -/

/-- The `effect` closure of each upgrade: mutates the state and reports
whether the upgrade stays in the pool (`true`) or is exhausted (`false`). -/
noncomputable def applyUpgrade : UpgradeKind → MainState → MainState × Bool
  | .brakes, s => ({ s with has_brakes := true }, false)
  | .missiles, s =>
      ({ s with rocket_stockpile := s.rocket_stockpile + s.next_rockets
              , next_rockets := s.next_rockets + 5 }, true)
  | .rocketReload, s =>
      let s := { s with rocket_reload_time := s.rocket_reload_time * 0.8 }
      (s, decide (s.rocket_reload_time > 0.05))
  | .bulletReload, s =>
      let s := { s with bullet_reload_time := s.bullet_reload_time * 0.8 }
      (s, decide (s.bullet_reload_time > 0.05))
  | .rocketProduction, s =>
      ({ s with rocket_production_per_sec := s.rocket_production_per_sec + 0.3 }, true)
  | .shieldsUp, s =>
      if s.shield_regeneration_per_sec = 0 then
        ({ s with shields := 1, shield_regeneration_per_sec := 0.1 / 60 }, true)
      else
        ({ s with shield_regeneration_per_sec := s.shield_regeneration_per_sec + 0.5 / 60 }, true)

/-- The draw loop of `LevelUp::new` (lines 252-259): up to `choices` picks
without replacement, stopping early when the pool is exhausted.  The pick
oracle is reduced modulo the current pool size, modelling the in-range
result of `rand::gen_range(0, available_upgrades.len())`. -/
def levelUpChooseAux : ℕ → List UpgradeKind → (ℕ → ℕ) → ℕ → List UpgradeKind
  | 0, _, _, _ => []
  | n + 1, avail, pick, k =>
      if avail.length = 0 then []
      else
        let i := pick k % avail.length
        avail.getD i .brakes :: levelUpChooseAux n (avail.eraseIdx i) pick (k + 1)

/-- `LevelUp::new` (lines 249-265). -/
def LevelUp.new (choices : ℕ) (avail : List UpgradeKind) (pick : ℕ → ℕ) : LevelUp :=
  ⟨0, levelUpChooseAux choices avail pick 0⟩

/-! The asteroid collision loop (lines 563-633). -/

/-- Read-only data of the collision loop. -/
structure CollisionCtx where
  shipPos : Vec2
  gameT : ℝ
  prevColliding : Bool    -- `self.colliding` from the previous tick

/-- The state mutated while the collision loop runs. -/
structure CollisionSt where
  shipVel : Vec2
  shields : ℝ
  invulnerable_until : ℝ
  bullets : List Bullet
  rockets : List Rocket
  xp : ℕ
  newAsteroids : List Asteroid
  colliding : Bool        -- the loop-local `colliding` flag

/-- Asteroid/ship collision handling for one asteroid (lines 566-582).
`none` models the early `return Some(Box::new(MenuState::Lost))`. -/
noncomputable def shipHitStep (ctx : CollisionCtx) (st : CollisionSt) (a : Asteroid) :
    Option CollisionSt :=
  if a.pos.distance ctx.shipPos < a.size + SHIP_HEIGHT / 3 then
    if !st.colliding && !ctx.prevColliding then
      let st1 :=
        if st.shields > 1 then
          { st with shields := st.shields - 1, invulnerable_until := ctx.gameT + 0.3 }
        else st
      if ctx.gameT < st1.invulnerable_until then
        some { st1 with
                 shipVel := st1.shipVel -
                   (6 : ℝ) • st1.shipVel.projectOnto (a.pos - ctx.shipPos)
               , colliding := true }
      else none
    else some { st with colliding := true }
  else some st

/-- Asteroid/bullet collision scan (lines 587-593): the first bullet within
range is marked collided and its velocity is captured as the hit vector. -/
noncomputable def bulletScan (a : Asteroid) : List Bullet → Option (List Bullet × Vec2)
  | [] => none
  | b :: bs =>
      if a.pos.distance b.pos < a.size then
        some ({ b with collided := true } :: bs, b.vel)
      else
        (bulletScan a bs).map fun p => (b :: p.1, p.2)

/-- Asteroid/rocket collision scan (lines 596-602). -/
noncomputable def rocketScan (a : Asteroid) : List Rocket → Option (List Rocket × Vec2)
  | [] => none
  | r :: rs =>
      if a.pos.distance r.pos < a.size + ROCKET_SIZE then
        some ({ r with collided := true } :: rs, r.vel)
      else
        (rocketScan a rs).map fun p => (r :: p.1, p.2)

/-- Fragmentation of a destroyed asteroid (lines 608-630): two children when
`sides > 3`, none otherwise. -/
noncomputable def breakAsteroid (a : Asteroid) (hit_vel : Vec2)
    (d1 d2 : FragChildDraws) : List Asteroid :=
  if 3 < a.sides then
    [ { pos := a.pos
      , vel := d1.speed • Vec2.normalize ⟨hit_vel.y, -hit_vel.x⟩
      , rot := d1.rot
      , rot_speed := d1.rotSpeed
      , size := a.size * 0.8
      , sides := a.sides - 1
      , collided := false
      , shape_idx := d1.shapeIdx }
    , { pos := a.pos
      , vel := d2.speed • Vec2.normalize ⟨-hit_vel.y, hit_vel.x⟩
      , rot := d2.rot
      , rot_speed := d2.rotSpeed
      , size := a.size * 0.8
      , sides := a.sides - 1
      , collided := false
      , shape_idx := d2.shapeIdx } ]
  else []

/-- The whole loop body for one asteroid (lines 565-632).  Returns `none` on
the fatal-collision early return; otherwise the updated loop state, the
(possibly marked) asteroid, and whether the `break` at line 631 fires. -/
noncomputable def asteroidStep (ctx : CollisionCtx) (d : Draws) (st : CollisionSt)
    (a : Asteroid) : Option (CollisionSt × Asteroid × Bool) :=
  match shipHitStep ctx st a with
  | none => none
  | some st1 =>
      let bres := bulletScan a st1.bullets
      let bullets1 := (bres.map Prod.fst).getD st1.bullets
      let hv1 : Option Vec2 := bres.map Prod.snd
      let rres := rocketScan a st1.rockets
      let rockets1 := (rres.map Prod.fst).getD st1.rockets
      -- a rocket hit overwrites a bullet hit vector (the rocket loop runs second)
      let hv : Option Vec2 := (rres.map Prod.snd).or hv1
      let st2 := { st1 with bullets := bullets1, rockets := rockets1 }
      match hv with
      | some hit_vel =>
          some ({ st2 with
                    xp := st2.xp + 1
                  , newAsteroids := st2.newAsteroids ++ breakAsteroid a hit_vel d.frag1 d.frag2 }
               , { a with collided := true }, true)
      | none => some (st2, a, false)

/-- The collision loop over the asteroid pool (lines 565-633).  `none` models
the fatal early return; otherwise the processed pool and final loop state. -/
noncomputable def collisionLoop (ctx : CollisionCtx) (d : Draws) :
    CollisionSt → List Asteroid → Option (List Asteroid × CollisionSt)
  | st, [] => some ([], st)
  | st, a :: rest =>
      match asteroidStep ctx d st a with
      | none => none
      | some (st', a', true) => some (a' :: rest, st')
      | some (st', a', false) =>
          (collisionLoop ctx d st' rest).map fun p => (a' :: p.1, p.2)

/-! Rocket self-guidance (lines 520-551). -/

/-- Strict lexicographic order on `(i32, i32)` keys (Rust tuple `Ord`). -/
def keyLt (p q : ℤ × ℤ) : Prop := p.1 < q.1 ∨ (p.1 = q.1 ∧ p.2 < q.2)

instance (p q : ℤ × ℤ) : Decidable (keyLt p q) := by
  unfold keyLt; infer_instance

/-- The fold underlying `Iterator::min_by_key`: a later element replaces the
current minimum only when its key is strictly smaller, so the first minimal
element wins ties. -/
def minByFold (key : α → ℤ × ℤ) (x : α) (xs : List α) : α :=
  xs.foldl (fun b a => if keyLt (key a) (key b) then a else b) x

/-- Rust `Iterator::min_by_key` over a list. -/
def min_by_key (key : α → ℤ × ℤ) : List α → Option α
  | [] => none
  | x :: xs => some (minByFold key x xs)

/-- The target-selection key of a steering rocket (lines 529-534): absolute
angle to the asteroid in truncated degrees, floored at 20, then truncated
distance. -/
noncomputable def rocketKey (rrot : Vec2) (rpos : Vec2) (a : Asteroid) : ℤ × ℤ :=
  (max (f32toI32 |toDegrees (rrot.angleBetween (a.pos - rpos))|) 20
  , f32toI32 (a.pos.distance rpos))

/-- Per-rocket movement, steering and thrust (the body of the loop at lines
520-551), reading the pre-move asteroid pool. -/
noncomputable def rocketUpdate (gameT : ℝ) (asteroids : List Asteroid) (r : Rocket) : Rocket :=
  let r :=
    if r.shot_at + 0.3 < gameT then
      let r := if r.vel.length > 8 then { r with steer := true } else r
      let r :=
        if r.steer then
          let rrot := vec_from_rot (toRadians r.rot)
          match min_by_key (rocketKey rrot r.pos) asteroids with
          | some target =>
              let angle := toDegrees (rrot.angleBetween (target.pos - r.pos))
              { r with rot := r.rot + min angle 10 }
          | none => r
        else r
      let acc := (0.6 : ℝ) • vec_from_rot (toRadians r.rot)
      let v := r.vel + acc
      let v := if v.length > 15 then (15 : ℝ) • v.normalize else v
      { r with vel := v }
    else r
  { r with pos := r.pos + r.vel }

/-- The ship velocity clamp of the Euler integration step (lines 507-509). -/
noncomputable def clampShipVel (v : Vec2) : Vec2 :=
  if v.length > 5 then (5 : ℝ) • v.normalize else v

/-! Black-hole dynamics (lines 637-696). -/

/-- One iteration of the pairwise black-hole loop (lines 641-663) on the pair
`(i, j)`: mutual gravity impulse, then the merge check.  `cur` is the live
pool (velocities already updated by earlier pairs), `acc` the merged holes
pushed so far. -/
noncomputable def bhPairInteract (p : List BlackHole × List BlackHole) (i j : ℕ) :
    List BlackHole × List BlackHole :=
  let (cur, acc) := p
  if j < i then
    let bh1 := cur.getD i default
    let bh2 := cur.getD j default
    let dist := bh1.pos.distance bh2.pos
    let dist_vec := bh2.pos - bh1.pos
    let comb_size := bh1.size + bh2.size
    let imp := (70 * comb_size / dist ^ 2) • dist_vec.normalize
    let cur := cur.set i { bh1 with vel := bh1.vel + imp }
    let cur := cur.set j { bh2 with vel := bh2.vel - imp }
    let bh1 := cur.getD i default
    let bh2 := cur.getD j default
    if bh1.pos.distance bh2.pos < comb_size then
      ( (cur.set i { bh1 with collided := true }).set j { bh2 with collided := true }
      , acc ++ [ { pos := bh1.pos + (bh2.size / comb_size) • dist_vec
                 , vel := (bh1.size / comb_size) • bh1.vel + (bh2.size / comb_size) • bh2.vel
                 , size := min comb_size 400
                 , collided := false } ] )
    else (cur, acc)
  else (cur, acc)

/-- The full pairwise loop (lines 639-665): every ordered pair `(i, j)` with
`i > j` is visited exactly once. -/
noncomputable def bhPairLoop (bhs : List BlackHole) : List BlackHole × List BlackHole :=
  (List.range bhs.length).foldl
    (fun acc i => (List.range bhs.length).foldl (fun acc2 j => bhPairInteract acc2 i j) acc)
    (bhs, [])

/-- `affect_obj` velocity change (line 673): inverse-square attraction. -/
noncomputable def affectVel (bh : BlackHole) (pos vel : Vec2) : Vec2 :=
  vel + (70 * bh.size / (bh.pos.distance pos) ^ 2) • (bh.pos - pos).normalize

/-- `affect_obj` for a bullet (radius 2). -/
noncomputable def affectBullet (bh : BlackHole) (b : Bullet) : Bullet :=
  let b := { b with vel := affectVel bh b.pos b.vel }
  if bh.pos.distance b.pos < bh.size + 2 then { b with collided := true } else b

/-- `affect_obj` for a rocket (radius 5). -/
noncomputable def affectRocket (bh : BlackHole) (r : Rocket) : Rocket :=
  let r := { r with vel := affectVel bh r.pos r.vel }
  if bh.pos.distance r.pos < bh.size + 5 then { r with collided := true } else r

/-- `affect_obj` for an asteroid (radius `size`). -/
noncomputable def affectAsteroid (bh : BlackHole) (a : Asteroid) : Asteroid :=
  let a := { a with vel := affectVel bh a.pos a.vel }
  if bh.pos.distance a.pos < bh.size + a.size then { a with collided := true } else a

/-- The pools `affect_objs` runs over, plus the ship. -/
structure AffectSt where
  bullets : List Bullet
  rockets : List Rocket
  asteroids : List Asteroid
  ship : Ship

/-- The per-black-hole loop (lines 667-696): move the hole, attract every
pool and the ship; `none` models the fatal early return on ship capture. -/
noncomputable def bhAffectLoop : List BlackHole → AffectSt → Option (List BlackHole × AffectSt)
  | [], st => some ([], st)
  | bh :: rest, st =>
      let bh := { bh with pos := bh.pos + bh.vel }
      let st := { bullets := st.bullets.map (affectBullet bh)
                , rockets := st.rockets.map (affectRocket bh)
                , asteroids := st.asteroids.map (affectAsteroid bh)
                , ship := { st.ship with vel := affectVel bh st.ship.pos st.ship.vel } }
      if bh.pos.distance st.ship.pos < bh.size + SHIP_HEIGHT / 3 then none
      else (bhAffectLoop rest st).map fun p => (bh :: p.1, p.2)

/-! World generation, cleanup, and leveling (lines 698-797). -/

/-- `Asteroid::new` (lines 110-121), with its draws supplied as oracles. -/
noncomputable def Asteroid.new (pos : Vec2) (env : Env) (d : AsteroidNewDraws) : Asteroid :=
  { pos := pos
  , vel := ⟨d.velX, d.velY⟩
  , rot := 0
  , rot_speed := d.rotSpeed
  , size := min env.screenW env.screenH / 10
  , sides := d.sides
  , collided := false
  , shape_idx := d.shapeIdx }

/-- The hostile-asteroid spawn loop (lines 740-750): one spawn per integer
crossed by the fractional counter. -/
noncomputable def hostileLoop (shipPos : Vec2) (env : Env) (dr : ℕ → HostileDraws)
    (k : ℕ) (x : ℝ) (acc : List Asteroid) : ℝ × List Asteroid :=
  if h : 1 ≤ x then
    let g := dr k
    let pos := shipPos + g.dist • Vec2.fromAngle (toRadians g.angleDeg)
    let a := Asteroid.new pos env g.ast
    let a := { a with vel := g.speed • (shipPos - pos).normalize }
    hostileLoop shipPos env dr (k + 1) (x - 1) (acc ++ [a])
  else (x, acc)
termination_by ⌊x⌋₊
decreasing_by
  have h0 : (0 : ℝ) ≤ x - 1 := by linarith
  have h1 : x < ⌊x⌋₊ + 1 := Nat.lt_floor_add_one x
  exact (Nat.floor_lt h0).mpr (by linarith)

/-- The black-hole retain filter of the end-of-tick cleanup (lines 761-763). -/
noncomputable def bhRetain (shipPos : Vec2) (world_diag_length : ℝ)
    (bhs : List BlackHole) : List BlackHole :=
  bhs.filter fun bh =>
    !bh.collided && decide (shipPos.distance bh.pos < world_diag_length / 2)

/-- The black-hole top-up loop (lines 766-784). -/
noncomputable def bhTopUp (shipPos : Vec2) (env : Env) (dr : ℕ → BHDraws)
    (k : ℕ) (target : ℕ) (bhs : List BlackHole) : List BlackHole :=
  if _h : bhs.length < target then
    let g := dr k
    let pos := shipPos + g.dist • Vec2.fromAngle (toRadians g.angleDeg)
    let rand_vec : Vec2 := ⟨g.rx * env.screenW, g.ry * env.screenH⟩
    let bh : BlackHole :=
      { pos := pos
      , vel := g.speed • ((shipPos + rand_vec) - pos).normalize
      , size := g.size
      , collided := false }
    bhTopUp shipPos env dr (k + 1) target (bhs ++ [bh])
  else bhs
termination_by target - bhs.length
decreasing_by simp; omega

/-- One growth step of the level threshold (line 790-791):
`((next_level_xp as f32 * 1.1) as usize).max(next_level_xp + 1)`.  The
`f32` round trip is modelled as exact multiplication and truncation. -/
def nextLevelXpStep (n : ℕ) : ℕ := max (Nat.floor ((n : ℚ) * 1.1)) (n + 1)

/-- The leveling loop (lines 787-797). -/
noncomputable def levelLoop (d : Draws) (k : ℕ) (s : MainState) : MainState :=
  if h : s.next_level_xp ≤ s.xp then
    levelLoop d (k + 1)
      { s with level := s.level + 1
             , xp := s.xp - s.next_level_xp
             , next_level_xp := nextLevelXpStep s.next_level_xp
             , hostile_asteroids_per_second := s.hostile_asteroids_per_second * 1.2
             , max_hostile_asteroid_speed := s.max_hostile_asteroid_speed * 1.08
             , level_up := some (LevelUp.new 3 s.available_upgrades (d.levelUpPick k)) }
  else s
termination_by 2 * s.xp + (if s.next_level_xp = 0 then 1 else 0)
decreasing_by
  simp only [nextLevelXpStep]
  have hmax := Nat.le_max_right (Nat.floor ((s.next_level_xp : ℚ) * 1.1)) (s.next_level_xp + 1)
  split <;> split <;> omega


/-! `MainState::update` (lines 407-805), split into its sequential phases. -/

/-- Lines 444-450: the ship acceleration selected from the input state. -/
noncomputable def shipAcc (s : MainState) (inp : Input) (rotation : ℝ) : Vec2 :=
  if inp.upDown then (1 / 3 : ℝ) • vec_from_rot rotation
  else if inp.downDown && s.has_brakes then -((1 / 20 : ℝ) • s.ship.vel)
  else -((1 / 1000 : ℝ) • s.ship.vel)

/-- Lines 453-462: bullet firing. -/
noncomputable def tickShootBullet (s : MainState) (inp : Input) (rotation game_t : ℝ) :
    MainState :=
  if inp.spaceDown ∧ game_t - s.last_bullet_shot > s.bullet_reload_time then
    let rot_vec := vec_from_rot rotation
    { s with bullets := s.bullets ++
               [ { pos := s.ship.pos + (SHIP_HEIGHT / 2) • rot_vec
                 , vel := (10 : ℝ) • rot_vec
                 , shot_at := game_t
                 , collided := false } ]
           , last_bullet_shot := game_t }
  else s

/-- Lines 465-485: rocket firing. -/
noncomputable def tickShootRocket (s : MainState) (inp : Input) (d : Draws)
    (rotation game_t : ℝ) : MainState :=
  if inp.altDown ∧ game_t - s.last_rocket_shot > s.rocket_reload_time ∧
      s.rocket_stockpile > 0 then
    let sf : ℝ := match s.rocket_side with | .left => -1 | .right => 1
    let rot_vec := vec_from_rot (rotation + sf * d.rocketSf * (Real.pi / 2))
    { s with rocket_stockpile := s.rocket_stockpile - 1
           , rocket_side := s.rocket_side.switch
           , rockets := s.rockets ++
               [ { pos := s.ship.pos + (SHIP_HEIGHT / 2) • rot_vec
                 , vel := (0.9 : ℝ) • s.ship.vel + d.rocketSpeed • rot_vec
                 , rot := s.ship.rot
                 , collided := false
                 , shot_at := game_t
                 , steer := false } ]
           , last_rocket_shot := game_t }
  else s

/-- Lines 488-496: passive rocket production and shield regeneration. -/
noncomputable def tickProduction (s : MainState) (frame_t : ℝ) : MainState :=
  let s := { s with rocket_production_progress :=
               s.rocket_production_progress + s.rocket_production_per_sec * frame_t }
  let s :=
    if s.rocket_production_progress ≥ 1 then
      let new_rockets := f32toUsize s.rocket_production_progress
      { s with rocket_production_progress := s.rocket_production_progress - new_rockets
             , rocket_stockpile := s.rocket_stockpile + new_rockets }
    else s
  { s with shields := s.shields + s.shield_regeneration_per_sec * frame_t }

/-- Lines 499-503: turning the ship. -/
noncomputable def tickSteer (s : MainState) (inp : Input) : MainState :=
  if inp.rightDown then
    { s with ship := { s.ship with rot := s.ship.rot + SHIP_ROTATION_SPEED } }
  else if inp.leftDown then
    { s with ship := { s.ship with rot := s.ship.rot - SHIP_ROTATION_SPEED } }
  else s

/-- Lines 506-561: Euler integration of the ship, bullet/rocket/asteroid
motion, and the line-561 bullet lifetime filter (literal 2.5). -/
noncomputable def tickIntegrate (s : MainState) (acc : Vec2) (game_t : ℝ) : MainState :=
  let s := { s with ship := { s.ship with vel := clampShipVel (s.ship.vel + acc) } }
  let s := { s with ship := { s.ship with pos := s.ship.pos + s.ship.vel } }
  let s := { s with bullets := s.bullets.map fun (b : Bullet) => { b with pos := b.pos + b.vel } }
  let s := { s with rockets := s.rockets.map (rocketUpdate game_t s.asteroids) }
  let s := { s with asteroids := s.asteroids.map fun (a : Asteroid) =>
               { a with pos := a.pos + a.vel, rot := a.rot + a.rot_speed } }
  { s with bullets := s.bullets.filter fun b => decide (b.shot_at + 2.5 > game_t) }

/-- Lines 563-635: the collision loop folded back into the state.  `none`
models the fatal early return; the second component is `new_asteroids`. -/
noncomputable def tickCollision (s : MainState) (game_t : ℝ) (d : Draws) :
    Option (MainState × List Asteroid) :=
  match collisionLoop ⟨s.ship.pos, game_t, s.colliding⟩ d
      ⟨s.ship.vel, s.shields, s.invulnerable_until, s.bullets, s.rockets, s.xp, [], false⟩
      s.asteroids with
  | none => none
  | some (asts, cst) =>
      some ( { s with asteroids := asts
                    , ship := { s.ship with vel := cst.shipVel }
                    , shields := cst.shields
                    , invulnerable_until := cst.invulnerable_until
                    , bullets := cst.bullets
                    , rockets := cst.rockets
                    , xp := cst.xp
                    , colliding := cst.colliding }
           , cst.newAsteroids )

/-- Lines 637-696: the pairwise black-hole loop, then motion and attraction.
`none` models the fatal ship capture; the second component holds the merged
holes to be appended at cleanup. -/
noncomputable def tickBlackHoles (s : MainState) : Option (MainState × List BlackHole) :=
  let pl := bhPairLoop s.black_holes
  match bhAffectLoop pl.1 ⟨s.bullets, s.rockets, s.asteroids, s.ship⟩ with
  | none => none
  | some (bhs2, ast) =>
      some ( { s with black_holes := bhs2
                    , bullets := ast.bullets
                    , rockets := ast.rockets
                    , asteroids := ast.asteroids
                    , ship := ast.ship }
           , pl.2 )

/-- Lines 699-735: ambient asteroid generation around the moving viewpoint. -/
noncomputable def tickGenerate (s : MainState) (env : Env) (d : Draws)
    (new_asteroids : List Asteroid) : MainState × List Asteroid :=
  if s.last_asteroid_generate_pos.distance s.ship.pos > 50 then
    let gen_vec := s.ship.pos - s.last_asteroid_generate_pos
    let new_x_pixel := |gen_vec.x| * env.screenH
    let new_y_pixel := |gen_vec.y| * env.screenW
    -- `amount_new_asteroids` is drawn from a range derived from the density
    -- and the swept pixels (lines 701-710); the drawn value is `d.genCount`
    let spawned := (List.range d.genCount).map fun k =>
      let g := d.gen k
      let x_pixel_share := new_x_pixel / (new_x_pixel + new_y_pixel)
      let pos :=
        if g.edge < x_pixel_share then
          -- x side: `g.a` models gen_range(0., gen_vec.x.abs()),
          -- `g.b` models gen_range(-2.5 * h, 2.5 * h)
          Vec2.mk (f32signum gen_vec.x * (2.5 * env.screenW - g.a)) g.b
        else
          -- y side: `g.a` models gen_range(-2.5 * w, 2.5 * w),
          -- `g.b` models gen_range(0., gen_vec.y.abs())
          Vec2.mk g.a (f32signum gen_vec.y * (2.5 * env.screenH - g.b))
      Asteroid.new (s.ship.pos + pos) env g.ast
    ( { s with generated_asteroids := s.generated_asteroids + d.genCount
             , last_asteroid_generate_pos := s.ship.pos }
    , new_asteroids ++ spawned )
  else (s, new_asteroids)

/-- Lines 738-750: the hostile-asteroid counter and spawn loop. -/
noncomputable def tickHostile (s : MainState) (env : Env) (d : Draws) (frame_t : ℝ)
    (new_asteroids : List Asteroid) : MainState × List Asteroid :=
  let s := { s with new_hostile_asteroids :=
               s.new_hostile_asteroids + s.hostile_asteroids_per_second * frame_t }
  let hres := hostileLoop s.ship.pos env d.hostile 0 s.new_hostile_asteroids new_asteroids
  ({ s with new_hostile_asteroids := hres.1 }, hres.2)

/-- Lines 753-764: the end-of-tick retain filters and appends. -/
noncomputable def tickCleanup (s : MainState) (game_t world_diag_length : ℝ)
    (new_asteroids : List Asteroid) (new_black_holes : List BlackHole) : MainState :=
  let s := { s with bullets := s.bullets.filter fun b =>
               decide (b.shot_at + BULLET_LIFETIME > game_t) && !b.collided }
  let s := { s with rockets := s.rockets.filter fun r =>
               decide (r.shot_at + ROCKET_LIFETIME > game_t) && !r.collided }
  let s := { s with asteroids :=
               (s.asteroids.filter fun (a : Asteroid) =>
                  !a.collided && decide (s.ship.pos.distance a.pos < world_diag_length / 2))
               ++ new_asteroids }
  { s with black_holes :=
      bhRetain s.ship.pos world_diag_length s.black_holes ++ new_black_holes }

/-- The non-prompt part of `MainState::update` (lines 427-804): one full
simulation tick, chaining the phases above in source order.  The outcome is
`some .lost` on the fatal early returns; the state returned alongside a
fatal outcome is the state at the return point (the caller replaces the
whole state, none of its fields are read again). -/
noncomputable def MainState.tickRest (s : MainState) (inp : Input) (env : Env) (d : Draws) :
    MainState × Option Outcome :=
  -- lines 427-433: pause toggle and early-out
  let s := if inp.pPressed then { s with paused := !s.paused } else s
  if s.paused then (s, none)
  else
    -- lines 435-442
    let frame_t := env.frameT
    let s := { s with game_t := s.game_t + frame_t }
    let game_t := s.game_t
    let world_diag_length := (Vec2.mk env.screenW env.screenH).length * 5
    let rotation := toRadians s.ship.rot
    let acc := shipAcc s inp rotation
    let s := tickShootBullet s inp rotation game_t
    let s := tickShootRocket s inp d rotation game_t
    let s := tickProduction s frame_t
    let s := tickSteer s inp
    let s := tickIntegrate s acc game_t
    match tickCollision s game_t d with
    | none => (s, some .lost)
    | some (s1, new_asteroids) =>
      match tickBlackHoles s1 with
      | none => (s1, some .lost)
      | some (s2, new_black_holes) =>
        let gres := tickGenerate s2 env d new_asteroids
        let hres := tickHostile gres.1 env d frame_t gres.2
        let s5 := tickCleanup hres.1 game_t world_diag_length hres.2 new_black_holes
        -- lines 766-784: top up the black-hole count
        let s6 := { s5 with black_holes :=
                      bhTopUp s5.ship.pos env d.bh 0 ((s5.level + 5) / 10) s5.black_holes }
        -- lines 787-797: leveling
        (levelLoop d 0 s6, none)

/-- `MainState::update` (lines 407-805).  `none` models a Rust panic: with an
empty choice list the prompt navigation computes `selected % 0` and the
confirmation indexes an empty vector, both of which abort.  The pool removal
by `Rc::ptr_eq` (line 414) is modelled by kind equality; each kind occurs at
most once in the pool. -/
noncomputable def MainState.update (s : MainState) (inp : Input) (env : Env) (d : Draws) :
    Option (MainState × Option Outcome) :=
  match s.level_up with
  | some lu =>
      if inp.enterPressed then
        -- lines 409-415: confirm, apply the upgrade, then fall through to the tick
        match lu.upgrade_choices.get? lu.selected with
        | none => none
        | some upgrade =>
            let s := { s with level_up := none }
            let res := applyUpgrade upgrade s
            let s := if res.2 then res.1
              else { res.1 with available_upgrades :=
                       res.1.available_upgrades.filter (fun u => u ≠ upgrade) }
            some (s.tickRest inp env d)
      else
        -- lines 416-424: navigate the prompt and return
        let sel :=
          if inp.downPressed then lu.selected + 1
          else if inp.upPressed then lu.upgrade_choices.length + lu.selected - 1
          else lu.selected
        if lu.upgrade_choices.length = 0 then none
        else
          some ( { s with level_up := some ⟨sel % lu.upgrade_choices.length, lu.upgrade_choices⟩ }
               , none )
  | none => some (s.tickRest inp env d)

/-! Helper lemmas about the vector model. -/

@[simp]
theorem Vec2.mk_add_mk (a b c d : ℝ) : (⟨a, b⟩ + ⟨c, d⟩ : Vec2) = ⟨a + c, b + d⟩ := rfl

@[simp]
theorem Vec2.mk_sub_mk (a b c d : ℝ) : (⟨a, b⟩ - ⟨c, d⟩ : Vec2) = ⟨a - c, b - d⟩ := rfl

@[simp]
theorem Vec2.smul_mk (r a b : ℝ) : (r • (⟨a, b⟩ : Vec2)) = ⟨r * a, r * b⟩ := rfl

@[simp]
theorem Vec2.neg_mk (a b : ℝ) : (-(⟨a, b⟩ : Vec2)) = ⟨-a, -b⟩ := rfl

@[simp]
theorem Vec2.length_mk (a b : ℝ) : Vec2.length ⟨a, b⟩ = Real.sqrt (a ^ 2 + b ^ 2) := rfl

theorem Vec2.eta (v : Vec2) : (⟨v.x, v.y⟩ : Vec2) = v := rfl

theorem Vec2.length_nonneg (v : Vec2) : 0 ≤ v.length := Real.sqrt_nonneg _

theorem Vec2.length_eq_zero_iff {v : Vec2} : v.length = 0 ↔ v = ⟨0, 0⟩ := by
  unfold Vec2.length
  rw [Real.sqrt_eq_zero']
  constructor
  · intro h
    have hx : v.x = 0 := by nlinarith [sq_nonneg v.x, sq_nonneg v.y]
    have hy : v.y = 0 := by nlinarith [sq_nonneg v.x, sq_nonneg v.y]
    cases v; simp_all
  · rintro rfl; norm_num

theorem Vec2.length_smul (r : ℝ) (v : Vec2) : (r • v).length = |r| * v.length := by
  cases v with
  | mk x y =>
    simp only [Vec2.smul_mk, Vec2.length_mk]
    have : (r * x) ^ 2 + (r * y) ^ 2 = r ^ 2 * (x ^ 2 + y ^ 2) := by ring
    rw [this, Real.sqrt_mul (sq_nonneg r), Real.sqrt_sq_eq_abs]

theorem Vec2.length_normalize {v : Vec2} (h : v.length ≠ 0) : v.normalize.length = 1 := by
  have h0 : 0 < v.length := lt_of_le_of_ne v.length_nonneg (Ne.symm h)
  show Real.sqrt ((v.x / v.length) ^ 2 + (v.y / v.length) ^ 2) = 1
  have heq : (v.x / v.length) ^ 2 + (v.y / v.length) ^ 2 =
      (v.x ^ 2 + v.y ^ 2) / v.length ^ 2 := by
    field_simp
  rw [heq]
  have hsq : v.length ^ 2 = v.x ^ 2 + v.y ^ 2 := Real.sq_sqrt (by positivity)
  rw [← hsq, div_self (by positivity)]
  exact Real.sqrt_one

theorem Vec2.perp_length (hit : Vec2) : Vec2.length ⟨hit.y, -hit.x⟩ = hit.length := by
  show Real.sqrt _ = Real.sqrt _
  congr 1
  ring

/-- C6 (amended): after the Euler integration step (lines 506-509) the ship
speed is at most 5 and the clamp is idempotent.  (The original claim that
the bound survives the whole tick is refuted by `C6_counterexample`: the
shield bounce and black-hole gravity are applied without re-clamping.) -/
theorem C6_amended :
    (∀ v a : Vec2, (clampShipVel (v + a)).length ≤ 5) ∧
    (∀ v : Vec2, clampShipVel (clampShipVel v) = clampShipVel v) := by
  have hle : ∀ w : Vec2, (clampShipVel w).length ≤ 5 := by
    intro w
    unfold clampShipVel
    split
    · rename_i h
      have hne : w.length ≠ 0 := by
        intro h0
        rw [h0] at h
        norm_num at h
      rw [Vec2.length_smul, Vec2.length_normalize hne]
      norm_num
    · rename_i h
      linarith [not_lt.mp h]
  refine ⟨fun v a => hle (v + a), fun v => ?_⟩
  have h2 : (clampShipVel v).length ≤ 5 := hle v
  set w := clampShipVel v with hw
  show clampShipVel w = w
  unfold clampShipVel
  rw [if_neg (not_lt.mpr h2)]

/-- C5: destroying an asteroid with `sides > 3` yields exactly two children
with `sides - 1`, size `0.8` times the parent, velocities perpendicular to
the hit vector with magnitude equal to the `[1, 3]` draw; an asteroid with
`sides = 3` yields no children (lines 608-630). -/
theorem C5_theorem (a : Asteroid) (hit : Vec2) (d1 d2 : FragChildDraws)
    (hv : hit ≠ ⟨0, 0⟩)
    (h1 : 1 ≤ d1.speed ∧ d1.speed ≤ 3) (h2 : 1 ≤ d2.speed ∧ d2.speed ≤ 3) :
    (3 < a.sides →
       (breakAsteroid a hit d1 d2).length = 2 ∧
       (∀ c ∈ breakAsteroid a hit d1 d2,
          c.sides = a.sides - 1 ∧ c.size = a.size * 0.8 ∧
          Vec2.dot c.vel hit = 0 ∧ 1 ≤ c.vel.length ∧ c.vel.length ≤ 3)) ∧
    (a.sides = 3 → breakAsteroid a hit d1 d2 = []) := by
  have hperp1 : Vec2.length ⟨hit.y, -hit.x⟩ ≠ 0 := by
    rw [Vec2.perp_length]
    intro h0
    exact hv (Vec2.length_eq_zero_iff.mp h0)
  have hperp2 : Vec2.length ⟨-hit.y, hit.x⟩ ≠ 0 := by
    intro h0
    have := Vec2.length_eq_zero_iff.mp h0
    apply hv
    cases hit
    simp_all [Vec2.mk.injEq, neg_eq_zero]
  constructor
  · intro hs
    unfold breakAsteroid
    rw [if_pos hs]
    refine ⟨rfl, ?_⟩
    intro c hc
    have hlen1 : (d1.speed • Vec2.normalize ⟨hit.y, -hit.x⟩).length = d1.speed := by
      rw [Vec2.length_smul, Vec2.length_normalize hperp1, mul_one,
        abs_of_nonneg (by linarith [h1.1])]
    have hlen2 : (d2.speed • Vec2.normalize ⟨-hit.y, hit.x⟩).length = d2.speed := by
      rw [Vec2.length_smul, Vec2.length_normalize hperp2, mul_one,
        abs_of_nonneg (by linarith [h2.1])]
    rcases List.mem_pair.mp hc with rfl | rfl
    · refine ⟨rfl, by norm_num [mul_comm], ?_, ?_, ?_⟩
      · show d1.speed * (hit.y / Vec2.length ⟨hit.y, -hit.x⟩) * hit.x +
            d1.speed * (-hit.x / Vec2.length ⟨hit.y, -hit.x⟩) * hit.y = 0
        ring
      · rw [hlen1]; exact h1.1
      · rw [hlen1]; exact h1.2
    · refine ⟨rfl, by norm_num [mul_comm], ?_, ?_, ?_⟩
      · show d2.speed * (-hit.y / Vec2.length ⟨-hit.y, hit.x⟩) * hit.x +
            d2.speed * (hit.x / Vec2.length ⟨-hit.y, hit.x⟩) * hit.y = 0
        ring
      · rw [hlen2]; exact h2.1
      · rw [hlen2]; exact h2.2
  · intro hs
    unfold breakAsteroid
    rw [if_neg (by omega)]

/-- Concrete fragmentation parent for the C5 witness. -/
def aW : Asteroid := ⟨⟨0, 0⟩, ⟨0, 0⟩, 0, 0, 10, 5, false, 0⟩

/-- Concrete fragmentation draws for the C5 witness. -/
def dW : FragChildDraws := ⟨2, 0, 0, 0⟩

/-- C5 witness: the fragmentation theorem evaluated on a concrete parent with
5 sides, size 10, hit vector `(0, 10)` and speed draw 2. -/
theorem C5_witness :
    (breakAsteroid aW ⟨0, 10⟩ dW dW).length = 2 ∧
    ∀ c ∈ breakAsteroid aW ⟨0, 10⟩ dW dW,
      c.sides = aW.sides - 1 ∧ c.size = aW.size * 0.8 ∧ Vec2.dot c.vel ⟨0, 10⟩ = 0 ∧
      1 ≤ c.vel.length ∧ c.vel.length ≤ 3 :=
  (C5_theorem aW ⟨0, 10⟩ dW dW (by simp [Vec2.mk.injEq])
    ⟨by norm_num [dW], by norm_num [dW]⟩ ⟨by norm_num [dW], by norm_num [dW]⟩).1
    (by norm_num [aW])

/-- Line 612 under the explicit-undefinedness convention: the velocity given
to the first fragmentation child, `none` when the hit vector is zero (the
source then normalizes a zero-length vector, producing NaN — no fallback
direction exists). -/
noncomputable def fragChildVelOpt (hit_vel : Vec2) (r : ℝ) : Option Vec2 :=
  (Vec2.normalizeOpt ⟨hit_vel.y, -hit_vel.x⟩).map fun n => r • n

/-- C9 counterexample: at the fragmentation call site a zero hit vector makes
the normalization undefined — no defined fallback direction is produced,
contradicting the claim. -/
theorem C9_counterexample :
    fragChildVelOpt ⟨0, 0⟩ 2 = none ∧ Vec2.normalizeOpt ⟨0, 0⟩ = none := by
  have h0 : Vec2.normalizeOpt ⟨(0 : ℝ), 0⟩ = none := by
    unfold Vec2.normalizeOpt
    rw [if_pos]
    simp [Vec2.length_mk]
  exact ⟨by unfold fragChildVelOpt; simp [h0], h0⟩

/-- C9 (amended): the normalizations performed by the simulation are defined
exactly for nonzero vectors; a zero vector yields an undefined result
(`none`, NaN in the source) with no fallback direction. -/
theorem C9_amended :
    (∀ v : Vec2, v ≠ ⟨0, 0⟩ →
       Vec2.normalizeOpt v = some v.normalize ∧ (Vec2.normalize v).length = 1) ∧
    (∀ v : Vec2, v = ⟨0, 0⟩ → Vec2.normalizeOpt v = none) ∧
    (∀ (hit : Vec2) (r : ℝ), hit ≠ ⟨0, 0⟩ → (fragChildVelOpt hit r).isSome) := by
  have hlen : ∀ v : Vec2, v ≠ ⟨0, 0⟩ → v.length ≠ 0 := by
    intro v hv h0
    exact hv (Vec2.length_eq_zero_iff.mp h0)
  refine ⟨fun v hv => ?_, fun v hv => ?_, fun hit r hv => ?_⟩
  · exact ⟨by unfold Vec2.normalizeOpt; rw [if_neg (hlen v hv)],
      Vec2.length_normalize (hlen v hv)⟩
  · subst hv
    unfold Vec2.normalizeOpt
    rw [if_pos]
    simp [Vec2.length_mk]
  · have hperp : Vec2.length ⟨hit.y, -hit.x⟩ ≠ 0 := by
      rw [Vec2.perp_length]
      exact hlen hit hv
    unfold fragChildVelOpt Vec2.normalizeOpt
    rw [if_neg hperp]
    rfl

/-- C9 witness: the amended theorem applied at the nonzero vector `(3, 4)`. -/
theorem C9_witness :
    Vec2.normalizeOpt ⟨3, 4⟩ = some (Vec2.normalize ⟨3, 4⟩) ∧
    (Vec2.normalize ⟨3, 4⟩).length = 1 ∧ (fragChildVelOpt ⟨3, 4⟩ 2).isSome := by
  have h1 := C9_amended.1 ⟨3, 4⟩ (by simp [Vec2.mk.injEq])
  have h3 := C9_amended.2.2 ⟨3, 4⟩ 2 (by simp [Vec2.mk.injEq])
  exact ⟨h1.1, h1.2, h3⟩

/-- Exit property of the leveling loop, by induction on its measure. -/
theorem levelLoop_exit (d : Draws) : ∀ (fuel k : ℕ) (s : MainState),
    2 * s.xp + (if s.next_level_xp = 0 then 1 else 0) ≤ fuel →
    (levelLoop d k s).xp < (levelLoop d k s).next_level_xp := by
  intro fuel
  induction fuel with
  | zero =>
      intro k s hm
      have hxp : s.xp = 0 := by omega
      have hnz : s.next_level_xp ≠ 0 := by
        intro h
        rw [h] at hm
        simp at hm
      rw [levelLoop.eq_def, dif_neg (by omega)]
      omega
  | succ n ih =>
      intro k s hm
      rw [levelLoop.eq_def]
      split
      · rename_i h
        apply ih
        have h1 : nextLevelXpStep s.next_level_xp ≠ 0 := by
          unfold nextLevelXpStep
          simp [Nat.max_eq_zero_iff]
        show 2 * (s.xp - s.next_level_xp) +
            (if nextLevelXpStep s.next_level_xp = 0 then 1 else 0) ≤ n
        rw [if_neg h1]
        rcases Nat.eq_zero_or_pos s.next_level_xp with h0 | h0
        · rw [if_pos h0] at hm
          omega
        · rw [if_neg (by omega)] at hm
          omega
      · rename_i h
        omega

/-- C7: the leveling loop (lines 787-797) terminates (it is a total function
of the embedding) and exits with `xp < next_level_xp`; each iteration
increments the level, subtracts the old threshold from the XP, and strictly
increases the threshold. -/
theorem C7_theorem :
    (∀ (d : Draws) (k : ℕ) (s : MainState),
       (levelLoop d k s).xp < (levelLoop d k s).next_level_xp) ∧
    (∀ (d : Draws) (k : ℕ) (s : MainState), s.next_level_xp ≤ s.xp →
       (levelLoop d k s = levelLoop d (k + 1)
          { s with level := s.level + 1
                 , xp := s.xp - s.next_level_xp
                 , next_level_xp := nextLevelXpStep s.next_level_xp
                 , hostile_asteroids_per_second := s.hostile_asteroids_per_second * 1.2
                 , max_hostile_asteroid_speed := s.max_hostile_asteroid_speed * 1.08
                 , level_up := some (LevelUp.new 3 s.available_upgrades (d.levelUpPick k)) }) ∧
       s.next_level_xp < nextLevelXpStep s.next_level_xp) := by
  constructor
  · intro d k s
    exact levelLoop_exit d (2 * s.xp + (if s.next_level_xp = 0 then 1 else 0)) k s le_rfl
  · intro d k s h
    refine ⟨?_, ?_⟩
    · conv_lhs => rw [levelLoop.eq_def]
      rw [dif_pos h]
    · unfold nextLevelXpStep
      have := Nat.le_max_right
        (Nat.floor ((s.next_level_xp : ℚ) * 1.1)) (s.next_level_xp + 1)
      omega

/-- Concrete draw oracles used by several witnesses and counterexamples. -/
def astDraws0 : AsteroidNewDraws := ⟨0, 0, 0, 3, 0⟩

def frag0 : FragChildDraws := ⟨1, 0, 0, 0⟩

def gen0 : GenPosDraws := ⟨0, 0, 0, astDraws0⟩

def hostile0 : HostileDraws := ⟨0, 0, 0, astDraws0⟩

def bhDraws0 : BHDraws := ⟨0, 0, 0, 0, 1, 5⟩

def d0 : Draws :=
  ⟨1, 1, frag0, frag0, 0, fun _ => gen0, fun _ => hostile0, fun _ => bhDraws0, fun _ _ => 0⟩

/-- The input with no key pressed or held. -/
def inpNone : Input := ⟨false, false, false, false, false, false, false, false, false, false⟩

/-- A 100 x 100 screen and a one-second frame. -/
def env1 : Env := ⟨1, 100, 100⟩

/-- A concrete baseline state (close to `MainState::new` with empty pools)
used by the witnesses and counterexamples. -/
def baseState : MainState where
  paused := false
  game_t := 0
  ship := ⟨⟨0, 0⟩, 0, ⟨0, 0⟩⟩
  invulnerable_until := 0
  colliding := false
  last_asteroid_generate_pos := ⟨0, 0⟩
  generated_asteroids := 0
  bullets := []
  last_bullet_shot := 0
  last_rocket_shot := 0
  asteroids := []
  rockets := []
  rocket_side := .right
  asteroid_shapes := 5
  black_holes := []
  level_up := none
  level := 1
  xp := 0
  next_level_xp := 3
  hostile_asteroids_per_second := 0
  new_hostile_asteroids := 0
  max_hostile_asteroid_speed := 1
  available_upgrades := [.brakes, .missiles, .rocketReload, .bulletReload,
    .rocketProduction, .shieldsUp]
  has_brakes := false
  shields := 0
  shield_regeneration_per_sec := 0
  rocket_stockpile := 2
  rocket_production_progress := 0
  rocket_production_per_sec := 0
  bullet_reload_time := 0.5
  rocket_reload_time := 1
  next_rockets := 5

/-- C7 witness: the leveling theorem applied at a concrete state with
`xp = 10` and `next_level_xp = 3`. -/
theorem C7_witness :
    (levelLoop d0 0 { baseState with xp := 10 }).xp <
      (levelLoop d0 0 { baseState with xp := 10 }).next_level_xp ∧
    baseState.next_level_xp < nextLevelXpStep baseState.next_level_xp :=
  ⟨C7_theorem.1 d0 0 _,
   (C7_theorem.2 d0 0 { baseState with xp := 10 } (by norm_num [baseState])).2⟩

/-- The without-replacement draw returns `min choices pool-size` upgrades. -/
theorem levelUpChooseAux_length : ∀ (n : ℕ) (avail : List UpgradeKind)
    (pick : ℕ → ℕ) (k : ℕ),
    (levelUpChooseAux n avail pick k).length = min n avail.length := by
  intro n
  induction n with
  | zero => intro avail pick k; simp [levelUpChooseAux]
  | succ m ih =>
      intro avail pick k
      unfold levelUpChooseAux
      by_cases h : avail.length = 0
      · rw [if_pos h]
        simp [h]
      · rw [if_neg h]
        simp only [List.length_cons, ih]
        have hi : pick k % avail.length < avail.length := Nat.mod_lt _ (by omega)
        have hlen := List.length_eraseIdx_add_one hi
        omega

theorem getD_cons_eraseIdx_perm : ∀ (l : List UpgradeKind) (i : ℕ), i < l.length →
    (l.getD i .brakes :: l.eraseIdx i).Perm l := by
  intro l
  induction l with
  | nil => intro i hi; simp at hi
  | cons x xs ih =>
      intro i hi
      cases i with
      | zero => simp
      | succ j =>
          have hj : j < xs.length := by simpa using hi
          simp only [List.getD_cons_succ, List.eraseIdx_cons_succ]
          exact (List.Perm.swap x (xs.getD j .brakes) (xs.eraseIdx j)).trans
            ((ih j hj).cons x)

/-- A pool no larger than the offer count is offered in full (in some order). -/
theorem levelUpChooseAux_perm : ∀ (n : ℕ) (avail : List UpgradeKind) (pick : ℕ → ℕ) (k : ℕ),
    avail.length ≤ n → (levelUpChooseAux n avail pick k).Perm avail := by
  intro n
  induction n with
  | zero =>
      intro avail pick k h
      have : avail = [] := List.length_eq_zero.mp (by omega)
      subst this
      simp [levelUpChooseAux]
  | succ m ih =>
      intro avail pick k h
      unfold levelUpChooseAux
      by_cases h0 : avail.length = 0
      · rw [if_pos h0]
        have : avail = [] := List.length_eq_zero.mp h0
        subst this
        exact List.Perm.refl _
      · rw [if_neg h0]
        have hi : pick k % avail.length < avail.length := Nat.mod_lt _ (by omega)
        have hlen := List.length_eraseIdx_add_one hi
        have hrec := ih (avail.eraseIdx (pick k % avail.length)) pick (k + 1) (by omega)
        exact (hrec.cons _).trans (getD_cons_eraseIdx_perm avail _ hi)

/-- C2 (amended): `LevelUp::new` degrades gracefully for any pool size — it
offers `min 3 pool` choices, and a pool smaller than the offer count is
offered in full; creation never faults, and the prompt tick never faults
while the cursor is in bounds of a nonempty choice list.  (With zero choices
the prompt tick does fault — see the counterexample.) -/
theorem C2_amended :
    (∀ (avail : List UpgradeKind) (pick : ℕ → ℕ),
       (LevelUp.new 3 avail pick).upgrade_choices.length = min 3 avail.length ∧
       (avail.length ≤ 3 → ((LevelUp.new 3 avail pick).upgrade_choices).Perm avail)) ∧
    (∀ (s : MainState) (lu : LevelUp) (inp : Input) (env : Env) (d : Draws),
       s.level_up = some lu → lu.selected < lu.upgrade_choices.length →
       s.update inp env d ≠ none) := by
  constructor
  · intro avail pick
    exact ⟨levelUpChooseAux_length 3 avail pick 0,
      fun h => levelUpChooseAux_perm 3 avail pick 0 h⟩
  · intro s lu inp env d hlu hsel
    have hlen : lu.upgrade_choices.length ≠ 0 := by omega
    unfold MainState.update
    rw [hlu]
    dsimp only
    by_cases he : inp.enterPressed
    · rw [if_pos he, List.get?_eq_get hsel]
      intro hc
      simp at hc
    · rw [if_neg he]
      intro hc
      rw [if_neg hlen] at hc
      simp at hc

/-- The state with an active zero-choice prompt (what an empty pool plus a
due level-up produces). -/
def sEmptyPrompt : MainState := { baseState with level_up := some ⟨0, []⟩ }

/-- C2 counterexample: an empty pool creates a prompt with zero choices, and
the next prompt tick faults (`selected % 0` aborts in Rust; modelled as
`none`), contradicting the claim that no prompt operation ever faults. -/
theorem C2_counterexample :
    (LevelUp.new 3 [] (fun _ => 0)).upgrade_choices = [] ∧
    MainState.update sEmptyPrompt inpNone env1 d0 = none := by
  exact ⟨rfl, rfl⟩

/-- C2 witness: the amended theorem at a one-element pool and at a concrete
in-bounds prompt state. -/
theorem C2_witness :
    (LevelUp.new 3 [.brakes] (fun _ => 0)).upgrade_choices.Perm [.brakes] ∧
    MainState.update { baseState with level_up := some ⟨0, [.missiles]⟩ }
      inpNone env1 d0 ≠ none :=
  ⟨(C2_amended.1 [.brakes] (fun _ => 0)).2 (by norm_num),
   C2_amended.2 { baseState with level_up := some ⟨0, [.missiles]⟩ } ⟨0, [.missiles]⟩
     inpNone env1 d0 rfl (by norm_num)⟩

/-- Evaluation helper: a concrete distance whose squared value is a square. -/
theorem Vec2.distance_eval (x1 y1 x2 y2 r : ℝ) (hr : 0 ≤ r)
    (h : (x1 - x2) ^ 2 + (y1 - y2) ^ 2 = r ^ 2) :
    Vec2.distance ⟨x1, y1⟩ ⟨x2, y2⟩ = r := by
  unfold Vec2.distance
  rw [Vec2.mk_sub_mk, Vec2.length_mk, h, Real.sqrt_sq hr]

/-- The ship-collision half of the loop body never changes the XP. -/
theorem shipHitStep_xp (ctx : CollisionCtx) (st : CollisionSt) (a : Asteroid)
    (st1 : CollisionSt) (h : shipHitStep ctx st a = some st1) : st1.xp = st.xp := by
  unfold shipHitStep at h
  dsimp only at h
  repeat' split at h
  all_goals first
    | (injection h with h; subst h; rfl)
    | (cases h)

/-- Case analysis of the whole per-asteroid body: either no projectile hit
(asteroid unchanged, XP unchanged, no break) or a hit (asteroid marked,
exactly one XP, break). -/
theorem asteroidStep_cases (ctx : CollisionCtx) (d : Draws) (st : CollisionSt)
    (a : Asteroid) (st' : CollisionSt) (a' : Asteroid) (brk : Bool)
    (h : asteroidStep ctx d st a = some (st', a', brk)) :
    (brk = false ∧ a' = a ∧ st'.xp = st.xp) ∨
    (brk = true ∧ a' = { a with collided := true } ∧ st'.xp = st.xp + 1) := by
  unfold asteroidStep at h
  cases hs : shipHitStep ctx st a with
  | none => rw [hs] at h; cases h
  | some st1 =>
      rw [hs] at h
      have hxp := shipHitStep_xp ctx st a st1 hs
      dsimp only at h
      rcases hb : bulletScan a st1.bullets with _ | ⟨bs, bv⟩ <;>
        rcases hr : rocketScan a st1.rockets with _ | ⟨rs, rv⟩ <;>
          rw [hb, hr] at h <;>
            simp only [Option.map_none', Option.map_some', Option.or, Option.getD,
              Option.some.injEq, Prod.mk.injEq] at h
      · obtain ⟨h1, h2, h3⟩ := h
        exact Or.inl ⟨h3.symm, h2.symm, by rw [← h1]; exact hxp⟩
      · obtain ⟨h1, h2, h3⟩ := h
        exact Or.inr ⟨h3.symm, h2.symm, by rw [← h1]; simp [hxp]⟩
      · obtain ⟨h1, h2, h3⟩ := h
        exact Or.inr ⟨h3.symm, h2.symm, by rw [← h1]; simp [hxp]⟩
      · obtain ⟨h1, h2, h3⟩ := h
        exact Or.inr ⟨h3.symm, h2.symm, by rw [← h1]; simp [hxp]⟩

/-- C10: the collision loop destroys at most one asteroid per tick — either
no projectile hit occurred (the pool is returned unchanged and no XP is
awarded) or the loop broke at the first hit asteroid, which is the only one
marked, one XP is awarded, and every later asteroid is untouched. -/
theorem C10_theorem (ctx : CollisionCtx) (d : Draws) :
    ∀ (l : List Asteroid) (st : CollisionSt) (out : List Asteroid) (st' : CollisionSt),
    collisionLoop ctx d st l = some (out, st') →
    (out = l ∧ st'.xp = st.xp) ∨
    (∃ i, ∃ hi : i < l.length,
       out = l.set i { l.get ⟨i, hi⟩ with collided := true } ∧ st'.xp = st.xp + 1) := by
  intro l
  induction l with
  | nil =>
      intro st out st' h
      unfold collisionLoop at h
      simp only [Option.some.injEq, Prod.mk.injEq] at h
      exact Or.inl ⟨h.1.symm, by rw [← h.2]⟩
  | cons a rest ih =>
      intro st out st' h
      unfold collisionLoop at h
      cases hstep : asteroidStep ctx d st a with
      | none => rw [hstep] at h; cases h
      | some res =>
          obtain ⟨st1, a', brk⟩ := res
          rw [hstep] at h
          rcases asteroidStep_cases ctx d st a st1 a' brk hstep with
            ⟨hb, ha, hxp⟩ | ⟨hb, ha, hxp⟩
          · subst hb
            subst ha
            dsimp only at h
            cases hrec : collisionLoop ctx d st1 rest with
            | none => rw [hrec] at h; cases h
            | some p =>
                obtain ⟨out2, st2⟩ := p
                rw [hrec] at h
                simp only [Option.map_some', Option.some.injEq, Prod.mk.injEq] at h
                obtain ⟨ho, hs⟩ := h
                rcases ih st1 out2 st2 hrec with ⟨ho2, hxp2⟩ | ⟨i, hi, ho2, hxp2⟩
                · exact Or.inl ⟨by rw [← ho, ho2], by rw [← hs, hxp2, hxp]⟩
                · refine Or.inr ⟨i + 1, by simpa using Nat.succ_lt_succ hi, ?_, ?_⟩
                  · rw [← ho, ho2]
                    rfl
                  · rw [← hs, hxp2, hxp]
          · subst hb
            dsimp only at h
            simp only [Option.some.injEq, Prod.mk.injEq] at h
            obtain ⟨ho, hs⟩ := h
            refine Or.inr ⟨0, by simp, ?_, by rw [← hs, hxp]⟩
            rw [← ho, ha]
            rfl

/-- Concrete loop data for the C10 witness: one asteroid at `(100, 0)` (far
from the ship) and one bullet sitting on it. -/
def a10 : Asteroid := ⟨⟨100, 0⟩, ⟨0, 0⟩, 0, 0, 10, 3, false, 0⟩

def b10 : Bullet := ⟨⟨100, 0⟩, ⟨1, 0⟩, 0, false⟩

def st10 : CollisionSt := ⟨⟨0, 0⟩, 0, 0, [b10], [], 0, [], false⟩

def ctx10 : CollisionCtx := ⟨⟨0, 0⟩, 1, false⟩

/-- C10 witness: the loop theorem applied to a concrete run in which the
single asteroid is destroyed by the bullet. -/
theorem C10_witness :
    (([{ a10 with collided := true }] : List Asteroid) = [a10] ∧
       ({ st10 with bullets := [{ b10 with collided := true }], xp := 1 } :
         CollisionSt).xp = st10.xp) ∨
    (∃ i, ∃ hi : i < [a10].length,
       ([{ a10 with collided := true }] : List Asteroid) =
         [a10].set i { [a10].get ⟨i, hi⟩ with collided := true } ∧
       ({ st10 with bullets := [{ b10 with collided := true }], xp := 1 } :
         CollisionSt).xp = st10.xp + 1) := by
  have hda : Vec2.distance (⟨100, 0⟩ : Vec2) ⟨0, 0⟩ = 100 :=
    Vec2.distance_eval _ _ _ _ _ (by norm_num) (by norm_num)
  have hdb : Vec2.distance (⟨100, 0⟩ : Vec2) ⟨100, 0⟩ = 0 :=
    Vec2.distance_eval _ _ _ _ _ le_rfl (by norm_num)
  have heval : collisionLoop ctx10 d0 st10 [a10] =
      some ([{ a10 with collided := true }],
        { st10 with bullets := [{ b10 with collided := true }], xp := 1 }) := by
    norm_num [collisionLoop, asteroidStep, shipHitStep, bulletScan, rocketScan,
      breakAsteroid, ctx10, st10, a10, b10, SHIP_HEIGHT, hda, hdb, Option.or]
  exact C10_theorem ctx10 d0 [a10] st10 _ _ heval

/-- On a colliding hit with strictly more than one shield unit, one unit is
consumed, the invulnerability window is set, and the shield bounce is
applied (lines 567-581). -/
theorem shipHitStep_consume (ctx : CollisionCtx) (st : CollisionSt) (a : Asteroid)
    (hdist : a.pos.distance ctx.shipPos < a.size + SHIP_HEIGHT / 3)
    (hloc : st.colliding = false) (hprev : ctx.prevColliding = false)
    (hsh : 1 < st.shields) :
    shipHitStep ctx st a = some
      { st with shields := st.shields - 1
              , invulnerable_until := ctx.gameT + 0.3
              , shipVel := st.shipVel - (6 : ℝ) • st.shipVel.projectOnto (a.pos - ctx.shipPos)
              , colliding := true } := by
  unfold shipHitStep
  rw [if_pos hdist, if_pos (by simp [hloc, hprev])]
  dsimp only
  rw [if_pos hsh]
  rw [if_pos (by dsimp only; linarith)]

/-- On a colliding hit with at most one shield unit and no invulnerability,
the encounter is fatal (line 578). -/
theorem shipHitStep_lost (ctx : CollisionCtx) (st : CollisionSt) (a : Asteroid)
    (hdist : a.pos.distance ctx.shipPos < a.size + SHIP_HEIGHT / 3)
    (hloc : st.colliding = false) (hprev : ctx.prevColliding = false)
    (hsh : st.shields ≤ 1) (hinv : st.invulnerable_until ≤ ctx.gameT) :
    shipHitStep ctx st a = none := by
  unfold shipHitStep
  rw [if_pos hdist, if_pos (by simp [hloc, hprev])]
  dsimp only
  rw [if_neg (not_lt.mpr hsh)]
  rw [if_neg (not_lt.mpr hinv)]

/-- The projectile half of the loop body touches neither the shields nor the
invulnerability window nor the colliding flag. -/
theorem asteroidStep_preserve (ctx : CollisionCtx) (d : Draws) (st : CollisionSt)
    (a : Asteroid) (stB : CollisionSt) (h : shipHitStep ctx st a = some stB) :
    ∃ st' a' brk, asteroidStep ctx d st a = some (st', a', brk) ∧
      st'.colliding = stB.colliding ∧ st'.shields = stB.shields ∧
      st'.invulnerable_until = stB.invulnerable_until := by
  unfold asteroidStep
  rw [h]
  dsimp only
  rcases hb : bulletScan a stB.bullets with _ | ⟨bs, bv⟩ <;>
    rcases hr : rocketScan a stB.rockets with _ | ⟨rs, rv⟩ <;>
      simp only [Option.map_none', Option.map_some', Option.or, Option.getD] <;>
        exact ⟨_, _, _, rfl, rfl, rfl, rfl⟩

/-- With a collision already in progress the ship branch is skipped, so the
rest of the loop cannot be fatal and preserves shields and invulnerability. -/
theorem collisionLoop_of_colliding (ctx : CollisionCtx) (d : Draws) :
    ∀ (l : List Asteroid) (st : CollisionSt), st.colliding = true →
    ∃ out st', collisionLoop ctx d st l = some (out, st') ∧
      st'.shields = st.shields ∧ st'.invulnerable_until = st.invulnerable_until := by
  intro l
  induction l with
  | nil => intro st hc; exact ⟨[], st, rfl, rfl, rfl⟩
  | cons a rest ih =>
      intro st hc
      have hship : shipHitStep ctx st a = some { st with colliding := true } := by
        unfold shipHitStep
        split
        · rw [if_neg (by simp [hc])]
        · cases st
          simp_all
      have hst : ({ st with colliding := true } : CollisionSt) = st := by
        cases st
        simp_all
      rw [hst] at hship
      obtain ⟨st1, a', brk, hA, hc1, hs1, hi1⟩ := asteroidStep_preserve ctx d st a st hship
      unfold collisionLoop
      rw [hA]
      cases brk with
      | true => exact ⟨a' :: rest, st1, rfl, hs1, hi1⟩
      | false =>
          obtain ⟨out2, st2, hrec, hs2, hi2⟩ := ih st1 (hc1.trans hc)
          refine ⟨a' :: out2, st2, ?_, hs2.trans hs1, hi2.trans hi1⟩
          dsimp only
          rw [hrec]
          rfl

/-- C1 (amended): when the first asteroid of the pool overlaps the ship and
no collision was already in progress, the code consumes a shield unit and
grants the invulnerability window only when `shields > 1` holds strictly
(line 569); with `shields ≤ 1` (which includes exactly one full unit) and no
active invulnerability the tick is fatal immediately. -/
theorem C1_amended (ctx : CollisionCtx) (d : Draws) (st : CollisionSt)
    (a : Asteroid) (rest : List Asteroid)
    (hdist : a.pos.distance ctx.shipPos < a.size + SHIP_HEIGHT / 3)
    (hloc : st.colliding = false) (hprev : ctx.prevColliding = false) :
    (1 < st.shields →
       ∃ out st', collisionLoop ctx d st (a :: rest) = some (out, st') ∧
         st'.shields = st.shields - 1 ∧ st'.invulnerable_until = ctx.gameT + 0.3) ∧
    (st.shields ≤ 1 → st.invulnerable_until ≤ ctx.gameT →
       collisionLoop ctx d st (a :: rest) = none) := by
  constructor
  · intro hsh
    have hstep := shipHitStep_consume ctx st a hdist hloc hprev hsh
    obtain ⟨st1, a', brk, hA, hc1, hs1, hi1⟩ := asteroidStep_preserve ctx d st a _ hstep
    unfold collisionLoop
    rw [hA]
    cases brk with
    | true => exact ⟨a' :: rest, st1, rfl, hs1, hi1⟩
    | false =>
        obtain ⟨out2, st2, hrec, hs2, hi2⟩ :=
          collisionLoop_of_colliding ctx d rest st1 (by rw [hc1])
        refine ⟨a' :: out2, st2, ?_, (hs2.trans hs1 : _), (hi2.trans hi1 : _)⟩
        dsimp only
        rw [hrec]
        rfl
  · intro hsh hinv
    have hstep := shipHitStep_lost ctx st a hdist hloc hprev hsh hinv
    unfold collisionLoop asteroidStep
    rw [hstep]

/-- Concrete data for the C1 witness: an asteroid on the ship with two full
shield units charged. -/
def a1W : Asteroid := ⟨⟨0, 0⟩, ⟨0, 0⟩, 0, 0, 10, 3, false, 0⟩

def st1W : CollisionSt := ⟨⟨0, 0⟩, 2, 0, [], [], 0, [], false⟩

def ctx1W : CollisionCtx := ⟨⟨0, 0⟩, 1, false⟩

/-- C1 witness: the amended theorem applied at a concrete overlapping
asteroid with `shields = 2`, consuming exactly one unit and granting the
window until `gameT + 0.3`. -/
theorem C1_witness :
    ∃ out st', collisionLoop ctx1W d0 st1W [a1W] = some (out, st') ∧
      st'.shields = st1W.shields - 1 ∧ st'.invulnerable_until = ctx1W.gameT + 0.3 :=
  (C1_amended ctx1W d0 st1W a1W []
    (by
      have h : Vec2.distance (⟨0, 0⟩ : Vec2) ⟨0, 0⟩ = 0 :=
        Vec2.distance_eval _ _ _ _ _ le_rfl (by norm_num)
      show Vec2.distance a1W.pos ctx1W.shipPos < a1W.size + SHIP_HEIGHT / 3
      rw [show a1W.pos = (⟨0, 0⟩ : Vec2) from rfl,
        show ctx1W.shipPos = (⟨0, 0⟩ : Vec2) from rfl, h]
      norm_num [a1W, SHIP_HEIGHT])
    rfl rfl).1 (by norm_num [st1W])

@[simp]
theorem Vec2.add_zero_mk (v : Vec2) : v + (⟨0, 0⟩ : Vec2) = v := by
  cases v
  simp

/-- C3 (amended): while a prompt is active and confirm is not pressed, the
tick handles only the cursor (wrapping modulo the number of choices) and
returns with every other state component unchanged; when confirm is
pressed, the chosen upgrade is applied, the prompt is cleared, and the tick
falls through to the normal simulation instead of returning. -/
theorem C3_amended (s : MainState) (lu : LevelUp) (inp : Input) (env : Env) (d : Draws)
    (hlu : s.level_up = some lu) :
    (inp.enterPressed = false → lu.upgrade_choices.length ≠ 0 →
       s.update inp env d = some
         ({ s with level_up := some (LevelUp.mk
             ((if inp.downPressed then lu.selected + 1
               else if inp.upPressed then lu.upgrade_choices.length + lu.selected - 1
               else lu.selected) % lu.upgrade_choices.length) lu.upgrade_choices) }, none)) ∧
    (∀ upgrade, inp.enterPressed = true →
       lu.upgrade_choices.get? lu.selected = some upgrade →
       s.update inp env d = some
         ((let res := applyUpgrade upgrade { s with level_up := none }
           if res.2 then res.1
           else { res.1 with available_upgrades :=
                    res.1.available_upgrades.filter (fun u => u ≠ upgrade) }).tickRest
            inp env d)) := by
  constructor
  · intro he hlen
    unfold MainState.update
    rw [hlu]
    dsimp only
    rw [if_neg (by simp [he]), if_neg hlen]
  · intro upgrade he hget
    unfold MainState.update
    rw [hlu]
    dsimp only
    rw [if_pos he, hget]

/-- C3 witness: the amended theorem applied at a concrete prompt state with
the cursor moving down over two choices. -/
theorem C3_witness :
    MainState.update { baseState with level_up := some ⟨0, [.missiles, .brakes]⟩ }
      { inpNone with downPressed := true } env1 d0 = some
      ({ baseState with level_up := some ⟨1, [.missiles, .brakes]⟩ }, none) := by
  have h := (C3_amended { baseState with level_up := some ⟨0, [.missiles, .brakes]⟩ }
    ⟨0, [.missiles, .brakes]⟩ { inpNone with downPressed := true } env1 d0 rfl).1 rfl
    (by norm_num)
  simpa using h

/-- One-step exit equations for the tick loops (used to evaluate concrete
states without unbounded unfolding). -/
theorem hostileLoop_done (shipPos : Vec2) (env : Env) (dr : ℕ → HostileDraws)
    (k : ℕ) (x : ℝ) (acc : List Asteroid) (h : x < 1) :
    hostileLoop shipPos env dr k x acc = (x, acc) := by
  rw [hostileLoop.eq_def, dif_neg (not_le.mpr h)]

theorem bhTopUp_done (shipPos : Vec2) (env : Env) (dr : ℕ → BHDraws)
    (k target : ℕ) (bhs : List BlackHole) (h : ¬ bhs.length < target) :
    bhTopUp shipPos env dr k target bhs = bhs := by
  rw [bhTopUp.eq_def, dif_neg h]

theorem levelLoop_done (d : Draws) (k : ℕ) (s : MainState)
    (h : s.xp < s.next_level_xp) :
    levelLoop d k s = s := by
  rw [levelLoop.eq_def, dif_neg (by omega)]

/-- The prompt state used by the C3 counterexample. -/
def s_C3 : MainState := { baseState with level_up := some ⟨0, [.missiles]⟩ }

/-- The input pressing only confirm. -/
def inpEnter : Input := { inpNone with enterPressed := true }

/-- C3 counterexample: with a prompt active, pressing confirm applies the
upgrade and the tick then runs: the game clock advances from 0 to 1 in the
same tick, so the update did not return leaving the rest of the state
unchanged. -/
theorem C3_counterexample :
    Option.map (fun p => (p.1.game_t, p.2)) (MainState.update s_C3 inpEnter env1 d0) =
      some ((1 : ℝ), none) ∧ s_C3.game_t = 0 := by
  refine ⟨?_, rfl⟩
  set_option maxRecDepth 4000 in
  norm_num [MainState.update, MainState.tickRest, s_C3, inpEnter, inpNone, env1, d0,
    baseState, applyUpgrade, tickShootBullet, tickShootRocket, tickProduction,
    tickSteer, tickIntegrate, tickCollision, tickBlackHoles, tickGenerate,
    tickHostile, tickCleanup, collisionLoop, bhPairLoop, bhAffectLoop,
    bhTopUp_done, hostileLoop_done, levelLoop_done, bhRetain, shipAcc,
    clampShipVel, Vec2.distance, Real.sqrt_zero]

/-- The state used by the C1 counterexample: exactly one full shield unit,
no invulnerability, an asteroid on the ship. -/
def s_C1 : MainState := { baseState with shields := 1, asteroids := [a1W] }

/-- C1 counterexample: with exactly one full shield unit (`shields = 1`) the
guard `shields > 1.` fails, so no unit is consumed and the tick is fatal —
the claim promised consumption and an invulnerability window for "at least
1 full shield unit". -/
theorem C1_counterexample :
    Option.map (fun p => p.2) (MainState.update s_C1 inpNone env1 d0) =
      some (some .lost) ∧ s_C1.shields = 1 := by
  refine ⟨?_, rfl⟩
  set_option maxRecDepth 4000 in
  norm_num [MainState.update, MainState.tickRest, s_C1, a1W, inpNone, env1, d0,
    baseState, tickShootBullet, tickShootRocket, tickProduction,
    tickSteer, tickIntegrate, tickCollision, collisionLoop, asteroidStep,
    shipHitStep, shipAcc, clampShipVel, Vec2.distance, Real.sqrt_zero,
    SHIP_HEIGHT]

/-- The asteroid and state used by the C6 counterexample: the ship at the
speed cap flying straight into a large asteroid with two shield units. -/
def a6 : Asteroid := ⟨⟨0, 0⟩, ⟨0, 0⟩, 0, 0, 20, 3, false, 0⟩

noncomputable def s_C6 : MainState :=
  { baseState with shields := 2, ship := ⟨⟨0, 0⟩, 180, ⟨0, 14 / 3⟩⟩, asteroids := [a6] }

/-- The input holding only thrust. -/
def inpThrust : Input := { inpNone with upDown := true }

/-- C6 counterexample: in a single tick the ship reaches the cap (speed 5 at
the integration step) and the shield bounce then multiplies the velocity to
magnitude 25 — five times the cap — which survives to the end of the tick,
so the cap is not an invariant of the whole tick. -/
theorem C6_counterexample :
    Option.map (fun p => (p.1.ship.vel, p.2)) (MainState.update s_C6 inpThrust env1 d0) =
      some ((⟨0, -25⟩ : Vec2), none) ∧ 5 < Vec2.length ⟨0, -25⟩ := by
  have h25 : Real.sqrt 25 = 5 := by
    rw [show (25 : ℝ) = 5 ^ 2 by norm_num, Real.sqrt_sq (by norm_num : (0 : ℝ) ≤ 5)]
  have h625 : Real.sqrt 625 = 25 := by
    rw [show (625 : ℝ) = 25 ^ 2 by norm_num, Real.sqrt_sq (by norm_num : (0 : ℝ) ≤ 25)]
  have hrot : toRadians (180 : ℝ) = Real.pi := by
    unfold toRadians
    ring
  have hs20000 : (100 : ℝ) ≤ Real.sqrt 20000 := by
    rw [show (20000 : ℝ) = 100 ^ 2 * 2 by norm_num, Real.sqrt_mul (by positivity),
      Real.sqrt_sq (by norm_num : (0 : ℝ) ≤ 100)]
    nlinarith [Real.sq_sqrt (by norm_num : (0 : ℝ) ≤ 2), Real.sqrt_nonneg 2]
  have hcond : (5 : ℝ) < Real.sqrt 20000 * 5 / 2 := by linarith
  constructor
  · set_option maxRecDepth 8000 in
    norm_num [MainState.update, MainState.tickRest, s_C6, a6, inpThrust, inpNone, env1,
      d0, baseState, tickShootBullet, tickShootRocket, tickProduction,
      tickSteer, tickIntegrate, tickCollision, tickBlackHoles, tickGenerate,
      tickHostile, tickCleanup, collisionLoop, asteroidStep, shipHitStep,
      bulletScan, rocketScan, bhPairLoop, bhAffectLoop,
      bhTopUp_done, hostileLoop_done, levelLoop_done, bhRetain, shipAcc,
      clampShipVel, vec_from_rot, Vec2.distance, Vec2.projectOnto, Vec2.dot,
      Real.sqrt_zero, hrot, h25, hcond, SHIP_HEIGHT]
  · rw [Vec2.length_mk]
    norm_num [h625]

/-! Order facts about the rocket target key. -/

theorem keyLt_irrefl (p : ℤ × ℤ) : ¬ keyLt p p := by
  unfold keyLt
  omega

theorem keyLt_trans {p q r : ℤ × ℤ} (h1 : keyLt p q) (h2 : keyLt q r) : keyLt p r := by
  unfold keyLt at *
  omega

theorem keyLt_asymm {p q : ℤ × ℤ} (h : keyLt p q) : ¬ keyLt q p := by
  unfold keyLt at *
  omega

theorem keyLt_of_lt_of_not_lt {p q r : ℤ × ℤ} (h1 : keyLt p q) (h2 : ¬ keyLt r q) :
    keyLt p r := by
  unfold keyLt at *
  omega

/-- Characterization of the `min_by_key` fold: it returns the start value
(with nothing in the list strictly below it) or the first strictly-smaller
list element that no other element beats. -/
theorem minByFold_spec {α : Type} (key : α → ℤ × ℤ) :
    ∀ (xs : List α) (b : α),
      (minByFold key b xs = b ∧ ∀ a ∈ xs, ¬ keyLt (key a) (key b)) ∨
      (∃ i, ∃ hi : i < xs.length,
         minByFold key b xs = xs.get ⟨i, hi⟩ ∧
         keyLt (key (minByFold key b xs)) (key b) ∧
         (∀ a ∈ xs, ¬ keyLt (key a) (key (minByFold key b xs))) ∧
         (∀ j, ∀ hj : j < i,
            keyLt (key (minByFold key b xs)) (key (xs.get ⟨j, lt_trans hj hi⟩)))) := by
  intro xs
  induction xs with
  | nil =>
      intro b
      left
      exact ⟨rfl, by simp⟩
  | cons a xs ih =>
      intro b
      have hfold : minByFold key b (a :: xs) =
          minByFold key (if keyLt (key a) (key b) then a else b) xs := rfl
      by_cases hab : keyLt (key a) (key b)
      · rw [if_pos hab] at hfold
        rcases ih a with ⟨heq, hmin⟩ | ⟨i, hi, heq, hlt, hmin, hstrict⟩
        · right
          refine ⟨0, by simp, ?_, ?_, ?_, ?_⟩
          · rw [hfold, heq]
            rfl
          · rw [hfold, heq]
            exact hab
          · intro c hc
            rw [hfold, heq]
            rcases List.mem_cons.mp hc with rfl | hc2
            · exact keyLt_irrefl _
            · exact hmin c hc2
          · intro j hj
            omega
        · right
          refine ⟨i + 1, by simpa using Nat.succ_lt_succ hi, ?_, ?_, ?_, ?_⟩
          · rw [hfold, heq]
            rfl
          · rw [hfold]
            exact keyLt_trans hlt hab
          · intro c hc
            rw [hfold]
            rcases List.mem_cons.mp hc with rfl | hc2
            · exact keyLt_asymm hlt
            · exact hmin c hc2
          · intro j hj
            rw [hfold]
            cases j with
            | zero => exact hlt
            | succ jj => exact hstrict jj (by omega)
      · rw [if_neg hab] at hfold
        rcases ih b with ⟨heq, hmin⟩ | ⟨i, hi, heq, hlt, hmin, hstrict⟩
        · left
          refine ⟨by rw [hfold, heq], ?_⟩
          intro c hc
          rcases List.mem_cons.mp hc with rfl | hc2
          · exact hab
          · exact hmin c hc2
        · right
          have hra : keyLt (key (minByFold key b xs)) (key a) :=
            keyLt_of_lt_of_not_lt hlt hab
          refine ⟨i + 1, by simpa using Nat.succ_lt_succ hi, ?_, ?_, ?_, ?_⟩
          · rw [hfold, heq]
            rfl
          · rw [hfold]
            exact hlt
          · intro c hc
            rw [hfold]
            rcases List.mem_cons.mp hc with rfl | hc2
            · exact keyLt_asymm hra
            · exact hmin c hc2
          · intro j hj
            rw [hfold]
            cases j with
            | zero => exact hra
            | succ jj => exact hstrict jj (by omega)

/-- `Iterator::min_by_key` semantics over a nonempty list: the result is the
element with the minimal key, and ties go to the earliest such element. -/
theorem min_by_key_spec {α : Type} (key : α → ℤ × ℤ) (l : List α) (hne : l ≠ []) :
    ∃ i, ∃ hi : i < l.length,
      min_by_key key l = some (l.get ⟨i, hi⟩) ∧
      (∀ a ∈ l, ¬ keyLt (key a) (key (l.get ⟨i, hi⟩))) ∧
      (∀ j, ∀ hj : j < i,
         keyLt (key (l.get ⟨i, hi⟩)) (key (l.get ⟨j, lt_trans hj hi⟩))) := by
  cases l with
  | nil => exact absurd rfl hne
  | cons x xs =>
      rcases minByFold_spec key xs x with ⟨heq, hmin⟩ | ⟨i, hi, heq, hlt, hmin, hstrict⟩
      · refine ⟨0, by simp, ?_, ?_, ?_⟩
        · show some (minByFold key x xs) = _
          rw [heq]
          rfl
        · intro c hc
          rcases List.mem_cons.mp hc with rfl | hc2
          · exact heq ▸ keyLt_irrefl _
          · exact heq ▸ hmin c hc2
        · intro j hj
          omega
      · refine ⟨i + 1, by simpa using Nat.succ_lt_succ hi, ?_, ?_, ?_⟩
        · show some (minByFold key x xs) = _
          rw [heq]
          rfl
        · intro c hc
          rcases List.mem_cons.mp hc with rfl | hc2
          · show ¬ keyLt (key c) (key (xs.get ⟨i, hi⟩))
            exact heq ▸ keyLt_asymm hlt
          · show ¬ keyLt (key c) (key (xs.get ⟨i, hi⟩))
            exact heq ▸ hmin c hc2
        · intro j hj
          show keyLt (key (xs.get ⟨i, hi⟩)) _
          cases j with
          | zero => exact heq ▸ hlt
          | succ jj => exact heq ▸ hstrict jj (by omega)

/-- C4 (amended): a steering rocket targets the asteroid minimizing the
lexicographic key (truncated absolute angle in degrees floored at 20, then
truncated distance), ties resolved in favor of earlier pool order; the
heading then changes by `min(signed angle, 10)` — at most +10 degrees, but a
negative signed angle is applied in full, without any magnitude cap (see the
counterexample). -/
theorem C4_amended :
    (∀ (rrot rpos : Vec2) (asts : List Asteroid), asts ≠ [] →
       ∃ i, ∃ hi : i < asts.length,
         min_by_key (rocketKey rrot rpos) asts = some (asts.get ⟨i, hi⟩) ∧
         (∀ a ∈ asts,
            ¬ keyLt (rocketKey rrot rpos a) (rocketKey rrot rpos (asts.get ⟨i, hi⟩))) ∧
         (∀ j, ∀ hj : j < i,
            keyLt (rocketKey rrot rpos (asts.get ⟨i, hi⟩))
              (rocketKey rrot rpos (asts.get ⟨j, lt_trans hj hi⟩)))) ∧
    (∀ (gameT : ℝ) (asts : List Asteroid) (r : Rocket) (t : Asteroid),
       r.shot_at + 0.3 < gameT → 8 < r.vel.length →
       min_by_key (rocketKey (vec_from_rot (toRadians r.rot)) r.pos) asts = some t →
       (rocketUpdate gameT asts r).rot =
         r.rot + min (toDegrees ((vec_from_rot (toRadians r.rot)).angleBetween
           (t.pos - r.pos))) 10 ∧
       (rocketUpdate gameT asts r).rot ≤ r.rot + 10) := by
  constructor
  · intro rrot rpos asts hne
    exact min_by_key_spec (rocketKey rrot rpos) asts hne
  · intro gameT asts r t hshot hlen htarget
    have heval : (rocketUpdate gameT asts r).rot =
        r.rot + min (toDegrees ((vec_from_rot (toRadians r.rot)).angleBetween
          (t.pos - r.pos))) 10 := by
      unfold rocketUpdate
      dsimp only
      rw [if_pos hshot, if_pos hlen, if_pos rfl]
      rw [htarget]
    refine ⟨heval, ?_⟩
    rw [heval]
    have hmin := min_le_right
      (toDegrees ((vec_from_rot (toRadians r.rot)).angleBetween (t.pos - r.pos))) (10 : ℝ)
    linarith

/-- Concrete rocket and asteroid for C4: the asteroid sits at signed angle
-90 degrees from the rocket heading. -/
def r4 : Rocket := ⟨⟨0, 0⟩, ⟨0, -9⟩, 0, false, 0, false⟩

def a4 : Asteroid := ⟨⟨-1, 0⟩, ⟨0, 0⟩, 0, 0, 10, 3, false, 0⟩

/-- C4 counterexample: the per-tick cap `angle.min(10.)` only clamps from
above — here the steering rocket turns by -90 degrees in a single tick, far
more than the claimed 10-degree bound. -/
theorem C4_counterexample :
    (rocketUpdate 1 [a4] r4).rot = -90 ∧ 10 < |(rocketUpdate 1 [a4] r4).rot - r4.rot| := by
  have hlen9 : Vec2.length ⟨0, -9⟩ = 9 := by
    rw [Vec2.length_mk, show ((0 : ℝ) ^ 2 + (-9) ^ 2) = 9 ^ 2 by norm_num,
      Real.sqrt_sq (by norm_num : (0 : ℝ) ≤ 9)]
  have hrad : toRadians 0 = 0 := by
    unfold toRadians
    ring
  have harg : Vec2.angleBetween ⟨0, -1⟩ ⟨-1, 0⟩ = -(Real.pi / 2) := by
    unfold Vec2.angleBetween
    rw [Complex.arg_eq_neg_pi_div_two_iff]
    norm_num [Vec2.dot, Vec2.perpDot]
  have hdeg : toDegrees (-(Real.pi / 2)) = -90 := by
    unfold toDegrees
    field_simp
    ring
  have hmineval : min (-90 : ℝ) 10 = -90 := min_eq_left (by norm_num)
  have heval : (rocketUpdate 1 [a4] r4).rot = -90 := by
    unfold rocketUpdate
    norm_num [r4, a4, min_by_key, minByFold, hlen9, hrad, harg, hdeg, hmineval,
      vec_from_rot, Real.sin_zero, Real.cos_zero]
  refine ⟨heval, ?_⟩
  rw [heval]
  norm_num [r4]

/-- C4 witness: the amended theorem applied to the concrete rocket and the
single-asteroid pool. -/
theorem C4_witness :
    (∃ i, ∃ hi : i < [a4].length,
       min_by_key (rocketKey ⟨0, -1⟩ ⟨0, 0⟩) [a4] = some ([a4].get ⟨i, hi⟩) ∧
       (∀ a ∈ [a4],
          ¬ keyLt (rocketKey ⟨0, -1⟩ ⟨0, 0⟩ a) (rocketKey ⟨0, -1⟩ ⟨0, 0⟩ ([a4].get ⟨i, hi⟩))) ∧
       (∀ j, ∀ hj : j < i,
          keyLt (rocketKey ⟨0, -1⟩ ⟨0, 0⟩ ([a4].get ⟨i, hi⟩))
            (rocketKey ⟨0, -1⟩ ⟨0, 0⟩ ([a4].get ⟨j, lt_trans hj hi⟩)))) ∧
    (rocketUpdate 1 [a4] r4).rot ≤ r4.rot + 10 := by
  constructor
  · exact C4_amended.1 ⟨0, -1⟩ ⟨0, 0⟩ [a4] (by simp)
  · refine (C4_amended.2 1 [a4] r4 a4 (by norm_num [r4]) ?_ rfl).2
    rw [show r4.vel = (⟨0, -9⟩ : Vec2) from rfl,
      Vec2.length_mk, show ((0 : ℝ) ^ 2 + (-9) ^ 2) = 9 ^ 2 by norm_num,
      Real.sqrt_sq (by norm_num : (0 : ℝ) ≤ 9)]
    norm_num

/-- A pair `(i, j)` with `j ≥ i` is skipped by the guard at line 641. -/
theorem bhPairInteract_skip (p : List BlackHole × List BlackHole) (i j : ℕ)
    (h : ¬ j < i) : bhPairInteract p i j = p := by
  obtain ⟨cur, acc⟩ := p
  unfold bhPairInteract
  dsimp only
  rw [if_neg h]

/-- The two-hole pairwise loop visits exactly the pairs (0,0), (0,1), (1,0),
(1,1) in order. -/
theorem bhPairLoop_pair (b0 b1 : BlackHole) :
    bhPairLoop [b0, b1] =
      bhPairInteract (bhPairInteract (bhPairInteract (bhPairInteract
        ([b0, b1], []) 0 0) 0 1) 1 0) 1 1 := rfl

/-- Evaluation of the interacting pair `(1, 0)` when the holes overlap:
mutual impulse, both parents flagged, one merged hole pushed. -/
theorem bhPairInteract_10 (b0 b1 : BlackHole)
    (hd : b1.pos.distance b0.pos < b1.size + b0.size) :
    bhPairInteract ([b0, b1], []) 1 0 =
      ([{ b0 with vel := b0.vel - (70 * (b1.size + b0.size) / (b1.pos.distance b0.pos) ^ 2) • (b0.pos - b1.pos).normalize, collided := true },
        { b1 with vel := b1.vel + (70 * (b1.size + b0.size) / (b1.pos.distance b0.pos) ^ 2) • (b0.pos - b1.pos).normalize, collided := true }],
       [{ pos := b1.pos + (b0.size / (b1.size + b0.size)) • (b0.pos - b1.pos)
        , vel := (b1.size / (b1.size + b0.size)) • (b1.vel + (70 * (b1.size + b0.size) / (b1.pos.distance b0.pos) ^ 2) • (b0.pos - b1.pos).normalize) + (b0.size / (b1.size + b0.size)) • (b0.vel - (70 * (b1.size + b0.size) / (b1.pos.distance b0.pos) ^ 2) • (b0.pos - b1.pos).normalize)
        , size := min (b1.size + b0.size) 400
        , collided := false }]) := by
  unfold bhPairInteract
  dsimp only
  rw [if_pos (by norm_num : (0 : ℕ) < 1)]
  simp only [List.getD_cons_zero, List.getD_cons_succ, List.set_cons_zero,
    List.set_cons_succ]
  rw [if_pos hd]
  simp

/-- C8: in a two-hole system whose centers are closer than the radius sum at
the pairwise check, exactly one merged hole is pushed, with radius the sum
capped at 400 and velocity the radius-weighted average of the parents'
(impulse-updated) velocities; both parents are flagged and the end-of-tick
retain removes them, leaving exactly the merged hole. -/
theorem C8_theorem (b0 b1 : BlackHole) (shipPos : Vec2) (wdl : ℝ)
    (hd : b1.pos.distance b0.pos < b1.size + b0.size) (_hpos : b0.pos ≠ b1.pos) :
    ∃ v1 v0 : Vec2,
      bhPairLoop [b0, b1] =
        ([{ b0 with vel := v0, collided := true }, { b1 with vel := v1, collided := true }],
         [{ pos := b1.pos + (b0.size / (b1.size + b0.size)) • (b0.pos - b1.pos)
          , vel := (b1.size / (b1.size + b0.size)) • v1 + (b0.size / (b1.size + b0.size)) • v0
          , size := min (b1.size + b0.size) 400
          , collided := false }]) ∧
      v1 = b1.vel + (70 * (b1.size + b0.size) / (b1.pos.distance b0.pos) ^ 2) •
             (b0.pos - b1.pos).normalize ∧
      v0 = b0.vel - (70 * (b1.size + b0.size) / (b1.pos.distance b0.pos) ^ 2) •
             (b0.pos - b1.pos).normalize ∧
      bhRetain shipPos wdl (bhPairLoop [b0, b1]).1 ++ (bhPairLoop [b0, b1]).2 =
        (bhPairLoop [b0, b1]).2 := by
  have hloop : bhPairLoop [b0, b1] =
      bhPairInteract ([b0, b1], []) 1 0 := by
    rw [bhPairLoop_pair, bhPairInteract_skip _ 0 0 (by omega),
      bhPairInteract_skip _ 0 1 (by omega)]
    exact bhPairInteract_skip _ 1 1 (by omega)
  rw [hloop, bhPairInteract_10 b0 b1 hd]
  refine ⟨_, _, rfl, rfl, rfl, ?_⟩
  unfold bhRetain
  simp

/-- Concrete overlapping black holes for the C8 witness. -/
def b0W : BlackHole := ⟨⟨0, 0⟩, ⟨0, 0⟩, 10, false⟩

def b1W : BlackHole := ⟨⟨3, 0⟩, ⟨0, 0⟩, 10, false⟩

/-- C8 witness: the merge theorem applied to two holes of radius 10 at
distance 3 — one merged hole survives the cleanup, the parents do not. -/
theorem C8_witness :
    (bhPairLoop [b0W, b1W]).2.length = 1 ∧
    bhRetain ⟨0, 0⟩ 1000 (bhPairLoop [b0W, b1W]).1 ++ (bhPairLoop [b0W, b1W]).2 =
      (bhPairLoop [b0W, b1W]).2 := by
  have hd : Vec2.distance b1W.pos b0W.pos < b1W.size + b0W.size := by
    rw [show b1W.pos = (⟨3, 0⟩ : Vec2) from rfl, show b0W.pos = (⟨0, 0⟩ : Vec2) from rfl,
      Vec2.distance_eval 3 0 0 0 3 (by norm_num) (by norm_num)]
    norm_num [b0W, b1W]
  have hpos : b0W.pos ≠ b1W.pos := by
    intro h
    have := congrArg Vec2.x h
    norm_num [b0W, b1W] at this
  obtain ⟨v1, v0, heq, hv1, hv0, hret⟩ := C8_theorem b0W b1W ⟨0, 0⟩ 1000 hd hpos
  refine ⟨?_, hret⟩
  rw [heq]
  rfl
